import Mathlib

/-!
# vault-go: a shallow embedding of the Vault HTTP client

The development follows `src/http.go` and `src/transit.go`.

* `[]byte` is a list of bytes. A Go string that passes through `encoding/json`
  (a map key, a string value, the base64 text, a signature) is a `GoString`, a
  list of bytes, because the encoder replaces invalid UTF-8 by U+FFFD; a JSON
  string is a Lean string, a sequence of Unicode characters. Strings that the
  client only concatenates and compares (methods, paths, header names and
  values, the token) are Lean strings.
* A Go `interface{}` payload is a `Value`; a nil map stored in an interface is
  `Value.map none`, which is different from the nil interface `Value.nil`.
* The embedded `*rest.Client` (package `github.com/kevinburke/rest`) is not part
  of the repository: its two methods `NewRequest` and `Do` are parameters.
* The effects of a call are made explicit: every function takes and returns a
  `World`, which records the arguments of every `NewRequest` call, every request
  handed to `Do`, and the state of the remote server.
* A request body is represented by the JSON document it spells; the byte-level
  layout produced by `encoding/json` (member order, escaping, final newline) is
  not represented.
-/

namespace Vault

set_option linter.dupNamespace false

/-! ## Go strings and JSON strings -/

/-- A byte. -/
abbrev Byte := Fin 256

/-- A Go string: a sequence of bytes, not necessarily valid UTF-8. -/
abbrev GoString := List Byte

/-- The byte with the given value. -/
def byte (n : Nat) : Byte := ⟨n % 256, Nat.mod_lt _ (by decide)⟩

/-- The constant `utf8.RuneError`, U+FFFD. -/
def RuneError : Nat := 0xFFFD

/-- The function `utf8.DecodeRuneInString`: the first rune of the string and
the number of bytes it takes; an invalid or truncated sequence gives
`(RuneError, 1)`. Overlong forms, surrogates and values above U+10FFFF are
invalid: the second byte has to lie in the range that the first byte admits. -/
def DecodeRuneInString : GoString → Nat × Nat
  | [] => (RuneError, 0)
  | s0 :: rest =>
    if s0.val < 0x80 then (s0.val, 1)
    else if s0.val < 0xC2 then (RuneError, 1)
    else if s0.val < 0xE0 then
      match rest with
      | s1 :: _ =>
        if 0x80 ≤ s1.val ∧ s1.val ≤ 0xBF then (s0.val % 32 * 64 + s1.val % 64, 2)
        else (RuneError, 1)
      | _ => (RuneError, 1)
    else if s0.val < 0xF0 then
      match rest with
      | s1 :: s2 :: _ =>
        if (if s0.val = 0xE0 then 0xA0 else 0x80) ≤ s1.val ∧
            s1.val ≤ (if s0.val = 0xED then 0x9F else 0xBF) then
          if 0x80 ≤ s2.val ∧ s2.val ≤ 0xBF then
            (s0.val % 16 * 4096 + s1.val % 64 * 64 + s2.val % 64, 3)
          else (RuneError, 1)
        else (RuneError, 1)
      | _ => (RuneError, 1)
    else if s0.val < 0xF5 then
      match rest with
      | s1 :: s2 :: s3 :: _ =>
        if (if s0.val = 0xF0 then 0x90 else 0x80) ≤ s1.val ∧
            s1.val ≤ (if s0.val = 0xF4 then 0x8F else 0xBF) then
          if 0x80 ≤ s2.val ∧ s2.val ≤ 0xBF then
            if 0x80 ≤ s3.val ∧ s3.val ≤ 0xBF then
              (s0.val % 8 * 262144 + s1.val % 64 * 4096 + s2.val % 64 * 64 + s3.val % 64, 4)
            else (RuneError, 1)
          else (RuneError, 1)
        else (RuneError, 1)
      | _ => (RuneError, 1)
    else (RuneError, 1)

/-- The runes that `encoding/json` reads off a Go string: at each position the
rune `DecodeRuneInString` gives, U+FFFD for an invalid byte, after which the
position advances by the size of the rune. `skip` is the number of bytes still
to pass over. -/
def runesFrom : Nat → GoString → List Char
  | _, [] => []
  | skip + 1, _ :: rest => runesFrom skip rest
  | 0, b :: rest =>
    Char.ofNat (DecodeRuneInString (b :: rest)).1
      :: runesFrom ((DecodeRuneInString (b :: rest)).2 - 1) rest

/-- The JSON string that `encoding/json` writes for a Go string: the string
itself when it is valid UTF-8, with U+FFFD in place of every invalid byte
otherwise. -/
def jsonString (s : GoString) : String :=
  String.mk (runesFrom 0 s)

/-- The UTF-8 bytes of a rune (`utf8.AppendRune` on a valid rune). -/
def encodeRune (r : Nat) : GoString :=
  if r < 0x80 then [byte r]
  else if r < 0x800 then [byte (0xC0 + r / 64), byte (0x80 + r % 64)]
  else if r < 0x10000 then
    [byte (0xE0 + r / 4096), byte (0x80 + r / 64 % 64), byte (0x80 + r % 64)]
  else
    [byte (0xF0 + r / 262144), byte (0x80 + r / 4096 % 64), byte (0x80 + r / 64 % 64),
      byte (0x80 + r % 64)]

/-- The Go string with the given text: its UTF-8 bytes. It stands for a string
literal of the source and for the string that `encoding/json` stores when it
decodes a JSON string. -/
def lit (s : String) : GoString :=
  s.data.flatMap fun c => encodeRune c.toNat

/-! ## Go values and their JSON encoding -/

/-- A JSON document. -/
inductive Json where
  | null
  | bool (b : Bool)
  | num (n : Int)
  | str (s : String)
  | arr (xs : List Json)
  | obj (kvs : List (String × Json))

/-- Member `key` of a JSON object, if the document is an object that has it. -/
def Json.get (key : String) : Json → Option Json
  | .obj kvs => kvs.lookup key
  | _ => none

/-- A Go value held in an `interface{}`. `map m` is a `map[string]interface{}`
(`none` is the nil map), `values q` is a `url.Values` (`none` is the nil map,
the value lists are taken non-nil), `chan` is a value of type `chan int`, which
`encoding/json` refuses. -/
inductive Value where
  | nil
  | bool (b : Bool)
  | int (n : Int)
  | string (s : GoString)
  | slice (xs : List Value)
  | map (m : Option (List (GoString × Value)))
  | values (q : Option (List (String × List String)))
  | chan

/-- The entries of a `map[string]interface{}`. The first entry for a key is the
one in force. -/
abbrev GoMap := List (GoString × Value)

/-- The entries of a `url.Values`. -/
abbrev Values := List (String × List String)

/-- Reading `m[key]`. -/
def GoMap.get (m : GoMap) (key : GoString) : Option Value :=
  m.lookup key

/-- The assignment `m[key] = v`. -/
def GoMap.set (m : GoMap) (key : GoString) (v : Value) : GoMap :=
  (key, v) :: m.filter (fun e => e.1 != key)

/-- The comparison `data != nil` on an `interface{}`: only the nil interface is
nil, an interface holding a nil map is not. -/
def Value.isNil : Value → Bool
  | .nil => true
  | _ => false

/-- Go errors: a `*rest.Error` carrying an HTTP status, or any other error. -/
structure RestError where
  StatusCode : Int
  Title : String
deriving DecidableEq, Repr

/-- A non-nil Go `error` value. The Go `error` interface is `Option Error`. -/
inductive Error where
  | rest (e : RestError)
  | other (msg : String)
deriving DecidableEq, Repr

mutual
/-- The document written by `json.NewEncoder(b).Encode(data)`, or the encode
error. A Go string is written as `jsonString` gives it, as a value and as a
key of a map. -/
def jsonEncode : Value → Except Error Json
  | .nil => .ok .null
  | .bool b => .ok (.bool b)
  | .int n => .ok (.num n)
  | .string s => .ok (.str (jsonString s))
  | .slice xs =>
    match jsonEncodeList xs with
    | .ok js => .ok (.arr js)
    | .error e => .error e
  | .map none => .ok .null
  | .map (some m) =>
    match jsonEncodeFields m with
    | .ok js => .ok (.obj js)
    | .error e => .error e
  | .values none => .ok .null
  | .values (some q) =>
    .ok (.obj (q.map fun e => (e.1, Json.arr (e.2.map Json.str))))
  | .chan => .error (.other "json: unsupported type: chan int")
/-- Encoding of the elements of a slice. -/
def jsonEncodeList : List Value → Except Error (List Json)
  | [] => .ok []
  | v :: vs =>
    match jsonEncode v with
    | .error e => .error e
    | .ok j =>
      match jsonEncodeList vs with
      | .error e => .error e
      | .ok js => .ok (j :: js)
/-- Encoding of the entries of a map. -/
def jsonEncodeFields : List (GoString × Value) → Except Error (List (String × Json))
  | [] => .ok []
  | (k, v) :: m =>
    match jsonEncode v with
    | .error e => .error e
    | .ok j =>
      match jsonEncodeFields m with
      | .error e => .error e
      | .ok js => .ok ((jsonString k, j) :: js)
end

/-! ## `encoding/base64`: `StdEncoding.EncodeToString` -/

/-- The alphabet of the standard encoding. -/
def encodeStd : List Char :=
  "ABCDEFGHIJKLMNOPQRSTUVWXYZabcdefghijklmnopqrstuvwxyz0123456789+/".data

/-- The padding character of the standard encoding. -/
def StdPadding : Char := '='

/-- The character `enc.encode[n & 0x3F]`. -/
def encodeSextet (n : Nat) : Char :=
  encodeStd.getD (n % 64) 'A'

/-- The characters written by `Encoding.Encode` with the standard alphabet and
padding: three bytes give four characters; `val` is
`src[0]<<16 | src[1]<<8 | src[2]` and the shifts `val>>18`, `val>>12`, `val>>6`
are the divisions below. -/
def encodeChars : List Byte → List Char
  | b0 :: b1 :: b2 :: rest =>
    let val := b0.val * 65536 + b1.val * 256 + b2.val
    encodeSextet (val / 262144) :: encodeSextet (val / 4096) ::
      encodeSextet (val / 64) :: encodeSextet val :: encodeChars rest
  | [b0, b1] =>
    let val := b0.val * 65536 + b1.val * 256
    [encodeSextet (val / 262144), encodeSextet (val / 4096),
      encodeSextet (val / 64), StdPadding]
  | [b0] =>
    let val := b0.val * 65536
    [encodeSextet (val / 262144), encodeSextet (val / 4096), StdPadding, StdPadding]
  | [] => []

/-- The string `base64.StdEncoding.EncodeToString(src)`: the bytes of the
characters of `encodeChars`, which are ASCII. -/
def EncodeToString (src : List Byte) : GoString :=
  lit (String.mk (encodeChars src))

/-- Position of a character in the standard alphabet. Used only to invert the
encoding in proofs. -/
def decodeSextet (c : Char) : Nat :=
  encodeStd.indexOf c

/-- A left inverse of `encodeChars`. It is not part of the client; it is the
proof device for injectivity of the encoding. -/
def decodeChars : List Char → List Byte
  | c0 :: c1 :: c2 :: c3 :: rest =>
    if c2 = StdPadding then
      let n := decodeSextet c0 * 262144 + decodeSextet c1 * 4096
      [Fin.ofNat (n / 65536)]
    else if c3 = StdPadding then
      let n := decodeSextet c0 * 262144 + decodeSextet c1 * 4096 + decodeSextet c2 * 64
      [Fin.ofNat (n / 65536), Fin.ofNat (n / 256)]
    else
      let n := decodeSextet c0 * 262144 + decodeSextet c1 * 4096 + decodeSextet c2 * 64
        + decodeSextet c3
      Fin.ofNat (n / 65536) :: Fin.ofNat (n / 256) :: Fin.ofNat n :: decodeChars rest
  | _ => []

/-! ## `net/url`: `Values.Encode` -/

/-- The byte-wise order of Go strings, on the characters of two strings. -/
def stringLe : List Char → List Char → Bool
  | [], _ => true
  | _ :: _, [] => false
  | a :: as, b :: bs => a.toNat < b.toNat || (a.toNat == b.toNat && stringLe as bs)

/-- Insertion of a key into a sorted list of keys. -/
def insertKey (k : String) : List String → List String
  | [] => [k]
  | x :: xs => if stringLe k.data x.data then k :: x :: xs else x :: insertKey k xs

/-- The result of `slices.Sort(keys)`. -/
def sortKeys (keys : List String) : List String :=
  keys.foldr insertKey []

/-- The upper-case hexadecimal digit of a number below 16. -/
def upperhex (n : Nat) : Char :=
  "0123456789ABCDEF".data.getD (n % 16) '0'

/-- Characters that `QueryEscape` leaves alone: letters, digits and `-_.~`. -/
def unreserved (c : Char) : Bool :=
  c.isAlphanum || c == '-' || c == '_' || c == '.' || c == '~'

/-- The string `url.QueryEscape(s)`: a space becomes `+`, every byte of any
other escaped character becomes `%XX`. -/
def QueryEscape (s : String) : String :=
  String.mk (s.data.flatMap fun c =>
    if unreserved c then [c]
    else if c == ' ' then ['+']
    else (String.utf8EncodeChar c).flatMap fun b =>
      ['%', upperhex (b.toNat / 16), upperhex b.toNat])

/-- The string `v.Encode()` of a `url.Values`: `key=value` pairs joined by `&`,
sorted by key. A nil or empty `Values` gives the empty string. -/
def Values.Encode (v : Option Values) : String :=
  match v with
  | none => ""
  | some q =>
    let keys := sortKeys (q.map Prod.fst).eraseDups
    let pairs := keys.flatMap fun k =>
      ((q.lookup k).getD []).map fun x => QueryEscape k ++ "=" ++ QueryEscape x
    "&".intercalate pairs

/-! ## Requests, the rest client and the world -/

/-- An `http.Header`: the values stored under each key. -/
abbrev Header := List (String × List String)

/-- The value `h.Get(key)`: the first value stored under the key, or `""`. -/
def Header.Get (h : Header) (key : String) : String :=
  match h.lookup key with
  | some (v :: _) => v
  | _ => ""

/-- The header after `h.Set(key, value)`: the key holds the single value. -/
def Header.Set (h : Header) (key value : String) : Header :=
  (key, [value]) :: h.filter (fun e => e.1 != key)

/-- An `*http.Request`, as far as the client looks at it. -/
structure Request where
  Method : String
  URL : String
  Body : Option Json
  Header : Header

/-- The type `Signature` of `transit.go`. -/
structure Signature where
  Signature : GoString
deriving DecidableEq, Repr

/-- The type `valid` of `transit.go`. -/
structure valid where
  Valid : Bool
deriving DecidableEq, Repr

/-- What the `Data interface{}` field of a `Response` holds: nothing, a pointer
to a `Signature`, or a pointer to a `valid`; the pointed-to struct is given by
its current contents. -/
inductive DataRef where
  | nil
  | signature (sig : Signature)
  | valid (v : valid)
deriving DecidableEq, Repr

/-- The type `Response` of `http.go`, the envelope of every answer. -/
structure Response where
  Data : DataRef
  RequestID : String
  Renewable : Bool
  LeaseID : String
  WrapInfo : String
  Warnings : String
  Auth : String
deriving DecidableEq, Repr

/-- The argument `v interface{}` of `MakeRequest`: nil, or a pointer to a
`Response`, given by the current contents of the struct. -/
inductive Target where
  | nil
  | response (r : Response)
deriving DecidableEq, Repr

/-- The embedded `*rest.Client`. The package is outside the repository, so its
methods are parameters: `NewRequest method path body` builds a request or
fails, `Do req v` performs the exchange on the server state, decodes the answer
into `v` and returns the error together with the contents of `v` afterwards. -/
structure RestClient (σ : Type) where
  NewRequest : String → String → Option Json → Except Error Request
  Do : Request → Target → σ → (Option Error × Target) × σ

/-- The arguments of one call of `NewRequest`. -/
structure Call where
  Method : String
  Path : String
  Body : Option Json

/-- The world a client acts on: the calls of `NewRequest` made so far, the
requests handed to `Do` so far, and the state of the server. -/
structure World (σ : Type) where
  built : List Call
  sent : List Request
  server : σ

/-- The constant `Version`. -/
def Version : String := "0.1"

/-- The constant `APIVersion`. -/
def APIVersion : String := "v1"

/-- The constant `userAgent`. -/
def userAgent : String := "vault-go/" ++ Version

/-- The type `Client`: the embedded rest client and the token. -/
structure Client (σ : Type) where
  rest : RestClient σ
  token : String

/-- The function `NewClient`; `restClient` stands for the result of
`rest.NewClient("", "", baseURL)` with the HTTP client installed. -/
def NewClient {σ : Type} (restClient : RestClient σ) (token : String) : Client σ :=
  { rest := restClient, token := token }

/-- The method `Client.MakeRequest`. The result is the returned error and the
contents of `v` afterwards. -/
def Client.MakeRequest {σ : Type} (c : Client σ) (method : String) (pathPart : String)
    (data : Value) (v : Target) (w : World σ) : (Option Error × Target) × World σ :=
  let encoded : Except Error (Option Json) :=
    if !data.isNil && (method == "POST" || method == "PUT") then
      match jsonEncode data with
      | .error err => .error err
      | .ok b => .ok (some b)
    else .ok none
  match encoded with
  | .error err => ((some err, v), w)
  | .ok r =>
    let pathPart :=
      if method == "GET" && !data.isNil then
        match data with
        | .values udata => pathPart ++ "?" ++ Values.Encode udata
        | _ => pathPart
      else pathPart
    let path := "/" ++ APIVersion ++ pathPart
    let w := { w with built := w.built ++ [{ Method := method, Path := path, Body := r }] }
    match c.rest.NewRequest method path r with
    | .error err => ((some err, v), w)
    | .ok req =>
      let req := { req with Header := req.Header.Set "X-Vault-Token" c.token }
      let ua := req.Header.Get "User-Agent"
      let req :=
        if ua == "" then { req with Header := req.Header.Set "User-Agent" userAgent }
        else { req with Header := req.Header.Set "User-Agent" (userAgent ++ " " ++ ua) }
      let res := c.rest.Do req v w.server
      (res.1, { w with sent := w.sent ++ [req], server := res.2 })

/-- The method `Client.GetResource`. -/
def Client.GetResource {σ : Type} (c : Client σ) (pathPart sid : String) (v : Target)
    (w : World σ) : (Option Error × Target) × World σ :=
  let sidPart := "/".intercalate [pathPart, sid]
  c.MakeRequest "GET" sidPart .nil v w

/-- The method `Client.CreateResource`. -/
def Client.CreateResource {σ : Type} (c : Client σ) (pathPart : String)
    (data : Option GoMap) (v : Target) (w : World σ) : (Option Error × Target) × World σ :=
  c.MakeRequest "POST" pathPart (.map data) v w

/-- The method `Client.UpdateResource`. -/
def Client.UpdateResource {σ : Type} (c : Client σ) (pathPart sid : String)
    (data : Option GoMap) (v : Target) (w : World σ) : (Option Error × Target) × World σ :=
  let sidPart := "/".intercalate [pathPart, sid]
  c.MakeRequest "POST" sidPart (.map data) v w

/-- The method `Client.DeleteResource`. -/
def Client.DeleteResource {σ : Type} (c : Client σ) (pathPart sid : String)
    (w : World σ) : Option Error × World σ :=
  let sidPart := "/".intercalate [pathPart, sid]
  let res := c.MakeRequest "DELETE" sidPart .nil .nil w
  match res.1.1 with
  | none => (none, res.2)
  | some (.rest rerr) =>
    if rerr.StatusCode = 404 then (none, res.2) else (some (.rest rerr), res.2)
  | some err => (some err, res.2)

/-- The method `Client.ListResource`. -/
def Client.ListResource {σ : Type} (c : Client σ) (pathPart : String)
    (data : Option Values) (v : Target) (w : World σ) : (Option Error × Target) × World σ :=
  c.MakeRequest "GET" pathPart (.values data) v w

/-! ## The Transit service (`transit.go`) -/

/-- The constant `transitKeyPathPart`. -/
def transitKeyPathPart : String := "/transit/keys"

/-- The constant `transitSignPathPart`. -/
def transitSignPathPart : String := "/transit/sign"

/-- The constant `transitVerifyPathPart`. -/
def transitVerifyPathPart : String := "/transit/verify"

/-- The type `TransitService`. -/
structure TransitService (σ : Type) where
  client : Client σ

/-- The field `Transit` that `NewClient` installs in a client. -/
def Client.Transit {σ : Type} (c : Client σ) : TransitService σ :=
  { client := c }

/-- The zero `Response` holding `d` in its `Data` field. -/
def Response.withData (d : DataRef) : Response :=
  { Data := d, RequestID := "", Renewable := false, LeaseID := "", WrapInfo := "",
    Warnings := "", Auth := "" }

/-- The map `data` after `if data == nil { data = make(map[string]interface{}) }`. -/
def entries (data : Option GoMap) : GoMap :=
  match data with
  | none => []
  | some m => m

/-- The method `TransitService.Create`. The result is the returned error and
the caller's map afterwards. -/
def TransitService.Create {σ : Type} (t : TransitService σ) (name : String)
    (data : Option GoMap) (w : World σ) : (Option Error × Option GoMap) × World σ :=
  let caller := data
  let data : GoMap := entries data
  let res := t.client.UpdateResource transitKeyPathPart name (some data) .nil w
  ((res.1.1, caller), res.2)

/-- The method `TransitService.Sign`. The result is the returned `Signature`,
the returned error and the caller's map afterwards: the assignment to
`data["input"]` writes into the caller's map when that map is not nil. -/
def TransitService.Sign {σ : Type} (t : TransitService σ) (key : String)
    (input : List Byte) (data : Option GoMap) (w : World σ) :
    (Signature × Option Error × Option GoMap) × World σ :=
  let caller := data
  let data : GoMap := entries data
  let data := data.set (lit "input") (.string (EncodeToString input))
  let caller := caller.map fun _ => data
  let sig : Signature := { Signature := lit "" }
  let r : Response := Response.withData (.signature sig)
  let res := t.client.UpdateResource transitSignPathPart key (some data) (.response r) w
  let sig :=
    match res.1.2 with
    | .response { Data := .signature s, .. } => s
    | _ => sig
  ((sig, res.1.1, caller), res.2)

/-- The method `TransitService.VerifySignature`. The result is the returned
boolean, the returned error and the caller's map afterwards. -/
def TransitService.VerifySignature {σ : Type} (t : TransitService σ) (key : String)
    (input : List Byte) (sig : GoString) (data : Option GoMap) (w : World σ) :
    (Bool × Option Error × Option GoMap) × World σ :=
  let caller := data
  let data : GoMap := entries data
  let data := data.set (lit "signature") (.string sig)
  let data := data.set (lit "input") (.string (EncodeToString input))
  let caller := caller.map fun _ => data
  let v : valid := { Valid := false }
  let r : Response := Response.withData (.valid v)
  let res := t.client.UpdateResource transitVerifyPathPart key (some data) (.response r) w
  let v :=
    match res.1.2 with
    | .response { Data := .valid x, .. } => x
    | _ => v
  ((v.Valid, res.1.1, caller), res.2)

/-! ## A model server

The server of the round-trip and tamper properties: it remembers the
`(key, input, signature)` triples it produced for sign requests and answers a
verify request with `valid = true` exactly when the triple of the request is
one of them. The server sees JSON: the input and the signature of a triple are
JSON strings, and the client stores the signature of an answer as the Go
string `lit` gives. -/

/-- The rest of `s` after the prefix `pre`, if `s` starts with it. -/
def trimPrefix (s pre : String) : Option String :=
  if pre.data.isPrefixOf s.data then some (String.mk (s.data.drop pre.data.length)) else none

/-- A `(key, input, signature)` triple. -/
abbrev Triple := String × String × String

/-- A model server is given by the signature it generates for a key and an
input in a given state. -/
structure Server where
  sigOf : List Triple → String → String → String

/-- The target after an answer with the given `Data` contents is decoded into it. -/
def decodeInto (d : DataRef) : Target → Target
  | .nil => .nil
  | .response r =>
    match r.Data, d with
    | .signature _, .signature s => .response { r with Data := .signature s }
    | .valid _, .valid x => .response { r with Data := .valid x }
    | _, _ => .response r

/-- The member `key` of the body of a request, when it is a string. -/
def Request.field (req : Request) (key : String) : Option String :=
  match req.Body with
  | some body =>
    match body.get key with
    | some (.str s) => some s
    | _ => none
  | none => none

/-- The exchange with the model server. -/
def Server.Do (srv : Server) (req : Request) (v : Target) (st : List Triple) :
    (Option Error × Target) × List Triple :=
  if req.Method != "POST" then
    ((some (.rest { StatusCode := 405, Title := "method not allowed" }), v), st)
  else
    match trimPrefix req.URL "/v1/transit/sign/" with
    | some key =>
      match req.field "input" with
      | some input =>
        let s := srv.sigOf st key input
        ((none, decodeInto (.signature { Signature := lit s }) v), st ++ [(key, input, s)])
      | none => ((some (.rest { StatusCode := 400, Title := "missing input" }), v), st)
    | none =>
      match trimPrefix req.URL "/v1/transit/verify/" with
      | some key =>
        match req.field "input", req.field "signature" with
        | some input, some s =>
          ((none, decodeInto (.valid { Valid := decide ((key, input, s) ∈ st) }) v), st)
        | _, _ => ((some (.rest { StatusCode := 400, Title := "missing field" }), v), st)
      | none => ((some (.rest { StatusCode := 404, Title := "not found" }), v), st)

/-- A rest client that talks to the model server: `Do` is the exchange with the
server, `NewRequest` is a parameter. -/
def Server.restClient (srv : Server)
    (newRequest : String → String → Option Json → Except Error Request) :
    RestClient (List Triple) where
  NewRequest := newRequest
  Do := srv.Do

/-- A client of the model server. -/
def Server.client (srv : Server)
    (newRequest : String → String → Option Json → Except Error Request) (token : String) :
    Client (List Triple) :=
  NewClient (srv.restClient newRequest) token

/-- A world with a fresh server state and empty logs. -/
def World.fresh {σ : Type} (s : σ) : World σ :=
  { built := [], sent := [], server := s }

/-! ## Auxiliary definitions used in statements and proofs -/

/-- Whether a value has a JSON encoding. -/
def encodable (v : Value) : Bool :=
  match jsonEncode v with
  | .ok _ => true
  | .error _ => false

/-- The request that `MakeRequest` hands to `Do` for the request `req` that
`NewRequest` built: the token header and the user agent are set. -/
def decorate (token : String) (req : Request) : Request :=
  let req := { req with Header := req.Header.Set "X-Vault-Token" token }
  let ua := req.Header.Get "User-Agent"
  if ua == "" then { req with Header := req.Header.Set "User-Agent" userAgent }
  else { req with Header := req.Header.Set "User-Agent" (userAgent ++ " " ++ ua) }

/-- The second half of `MakeRequest`, once the body `r` and the full path are
fixed: the call of `NewRequest`, the headers, the call of `Do`. -/
def dispatch {σ : Type} (c : Client σ) (method path : String) (r : Option Json)
    (v : Target) (w : World σ) : (Option Error × Target) × World σ :=
  match c.rest.NewRequest method path r with
  | .error err =>
    ((some err, v),
      { built := w.built ++ [{ Method := method, Path := path, Body := r }],
        sent := w.sent, server := w.server })
  | .ok req =>
    ((c.rest.Do (decorate c.token req) v w.server).1,
      { built := w.built ++ [{ Method := method, Path := path, Body := r }],
        sent := w.sent ++ [decorate c.token req],
        server := (c.rest.Do (decorate c.token req) v w.server).2 })

/-- The rest client builds the POST request for `path` as it is asked to:
`NewRequest` succeeds and the request carries the method, the path and the
body it was given. -/
def builds (newRequest : String → String → Option Json → Except Error Request)
    (path : String) : Prop :=
  ∀ body, ∃ h, newRequest "POST" path body
    = .ok { Method := "POST", URL := path, Body := body, Header := h }

/-- What a call that asks the rest client for `method path body` does to the
world `w`, leaving `w'`: `NewRequest` is called once, with these arguments; when
it refuses, nothing is handed to `Do` and the server is not reached; when it
builds a request, exactly one request is handed to `Do`, with the method, the
URL and the body of the built one. -/
def issues {σ : Type} (c : Client σ) (method path : String) (body : Option Json)
    (w w' : World σ) : Prop :=
  w'.built = w.built ++ [{ Method := method, Path := path, Body := body }] ∧
  match c.rest.NewRequest method path body with
  | .error _ => w'.sent = w.sent ∧ w'.server = w.server
  | .ok built =>
    ∃ req, w'.sent = w.sent ++ [req] ∧ req.Method = built.Method ∧ req.URL = built.URL ∧
      req.Body = built.Body

/-! ## Example data -/

/-- Whether every `%` of a path is followed by two hexadecimal digits. -/
def validEscapes : List Char → Bool
  | [] => true
  | c :: rest =>
    if c = '%' then
      match rest with
      | a :: b :: rest' =>
        (a.isDigit || ('a' ≤ a && a ≤ 'f') || ('A' ≤ a && a ≤ 'F')) &&
          (b.isDigit || ('a' ≤ b && b ≤ 'f') || ('A' ≤ b && b ≤ 'F')) && validEscapes rest'
      | _ => false
    else validEscapes rest

/-- An example of a `NewRequest`, used for the concrete instances only. Like
the rest client, which parses the URL with `net/url`, it refuses a path with a
malformed percent escape; every other path it takes as it is. The value of the
`User-Agent` header stands for the identifier the rest client sets. -/
def exampleNewRequest (method path : String) (body : Option Json) : Except Error Request :=
  if validEscapes path.data then
    .ok { Method := method, URL := path, Body := body,
          Header := [("User-Agent", ["rest-client"])] }
  else .error (.other "invalid URL escape")

/-- A model server whose signature for a key and an input is their
concatenation after a version tag. -/
def exampleServer : Server :=
  { sigOf := fun _ key input => "vault:v1:" ++ key ++ ":" ++ input }

/-- A client of `exampleServer`. -/
def exampleClient : Client (List Triple) :=
  exampleServer.client exampleNewRequest "your-token"

/-- The bytes of `"Alas"`. -/
def exampleMessage : List Byte := [65, 108, 97, 115]

/-- An option map holding a value that `encoding/json` refuses. -/
def badOptions : GoMap := [(lit "context", .chan)]

/-- An option map holding a string that is not valid UTF-8, the byte `0xFF`. -/
def invalidOptions : GoMap := [(lit "context", .string [255])]

/-- A signature string that is not valid UTF-8, the bytes `0xFF 0xFE`. -/
def invalidSignature : GoString := [255, 254]

/-! ## Lemmas: UTF-8 -/

theorem byte_val (n : Nat) : (byte n).val = n % 256 := rfl


theorem decode_one (s0 : Byte) (rest : GoString) (h : s0.val < 0x80) :
    DecodeRuneInString (s0 :: rest) = (s0.val, 1) := by
  simp only [DecodeRuneInString, h, if_true]

theorem decode_two (s0 s1 : Byte) (rest : GoString) (h0 : 0xC2 ≤ s0.val) (h0' : s0.val < 0xE0)
    (h1 : 0x80 ≤ s1.val) (h1' : s1.val ≤ 0xBF) :
    DecodeRuneInString (s0 :: s1 :: rest) = (s0.val % 32 * 64 + s1.val % 64, 2) := by
  have a1 : ¬ s0.val < 0x80 := by omega
  have a2 : ¬ s0.val < 0xC2 := by omega
  simp only [DecodeRuneInString, a1, a2, h0', h1, h1', if_true, if_false, and_self]

theorem decode_three (s0 s1 s2 : Byte) (rest : GoString) (h0 : 0xE0 ≤ s0.val)
    (h0' : s0.val < 0xF0)
    (h1 : (if s0.val = 0xE0 then 0xA0 else 0x80) ≤ s1.val)
    (h1' : s1.val ≤ (if s0.val = 0xED then 0x9F else 0xBF))
    (h2 : 0x80 ≤ s2.val) (h2' : s2.val ≤ 0xBF) :
    DecodeRuneInString (s0 :: s1 :: s2 :: rest)
      = (s0.val % 16 * 4096 + s1.val % 64 * 64 + s2.val % 64, 3) := by
  have a1 : ¬ s0.val < 0x80 := by omega
  have a2 : ¬ s0.val < 0xC2 := by omega
  have a3 : ¬ s0.val < 0xE0 := by omega
  simp only [DecodeRuneInString, a1, a2, a3, h0', h1, h1', h2, h2', if_true, if_false, and_self]

theorem decode_four (s0 s1 s2 s3 : Byte) (rest : GoString) (h0 : 0xF0 ≤ s0.val)
    (h0' : s0.val < 0xF5)
    (h1 : (if s0.val = 0xF0 then 0x90 else 0x80) ≤ s1.val)
    (h1' : s1.val ≤ (if s0.val = 0xF4 then 0x8F else 0xBF))
    (h2 : 0x80 ≤ s2.val) (h2' : s2.val ≤ 0xBF) (h3 : 0x80 ≤ s3.val) (h3' : s3.val ≤ 0xBF) :
    DecodeRuneInString (s0 :: s1 :: s2 :: s3 :: rest)
      = (s0.val % 8 * 262144 + s1.val % 64 * 4096 + s2.val % 64 * 64 + s3.val % 64, 4) := by
  have a1 : ¬ s0.val < 0x80 := by omega
  have a2 : ¬ s0.val < 0xC2 := by omega
  have a3 : ¬ s0.val < 0xE0 := by omega
  have a4 : ¬ s0.val < 0xF0 := by omega
  simp only [DecodeRuneInString, a1, a2, a3, a4, h0', h1, h1', h2, h2', h3, h3', if_true,
    if_false, and_self]

theorem runesFrom_zero_cons (b : Byte) (rest : GoString) :
    runesFrom 0 (b :: rest)
      = Char.ofNat (DecodeRuneInString (b :: rest)).1
        :: runesFrom ((DecodeRuneInString (b :: rest)).2 - 1) rest := rfl

theorem runesFrom_succ_cons (n : Nat) (b : Byte) (rest : GoString) :
    runesFrom (n + 1) (b :: rest) = runesFrom n rest := rfl

theorem runesFrom_encodeRune (c : Char) (rest : GoString) :
    runesFrom 0 (encodeRune c.toNat ++ rest) = c :: runesFrom 0 rest := by
  have hv : c.toNat < 0xD800 ∨ (0xDFFF < c.toNat ∧ c.toNat < 0x110000) := c.valid
  have hc : Char.ofNat c.toNat = c := Char.ofNat_toNat c
  generalize c.toNat = r at hv hc
  unfold encodeRune
  by_cases h1 : r < 0x80
  · rw [if_pos h1]
    have e0 : (byte r).val = r := by rw [byte_val]; omega
    rw [List.singleton_append, runesFrom_zero_cons, decode_one _ _ (by omega), e0, hc]
    rfl
  · rw [if_neg h1]
    by_cases h2 : r < 0x800
    · rw [if_pos h2]
      have e0 : (byte (0xC0 + r / 64)).val = 0xC0 + r / 64 := by rw [byte_val]; omega
      have e1 : (byte (0x80 + r % 64)).val = 0x80 + r % 64 := by rw [byte_val]; omega
      have hr : (0xC0 + r / 64) % 32 * 64 + (0x80 + r % 64) % 64 = r := by omega
      rw [List.cons_append, List.singleton_append, runesFrom_zero_cons,
        decode_two (byte (0xC0 + r / 64)) (byte (0x80 + r % 64)) rest (by omega) (by omega)
          (by omega) (by omega), e0, e1, hr, hc]
      rfl
    · rw [if_neg h2]
      by_cases h3 : r < 0x10000
      · rw [if_pos h3]
        have e0 : (byte (0xE0 + r / 4096)).val = 0xE0 + r / 4096 := by rw [byte_val]; omega
        have e1 : (byte (0x80 + r / 64 % 64)).val = 0x80 + r / 64 % 64 := by
          rw [byte_val]; omega
        have e2 : (byte (0x80 + r % 64)).val = 0x80 + r % 64 := by rw [byte_val]; omega
        have hr : (0xE0 + r / 4096) % 16 * 4096 + (0x80 + r / 64 % 64) % 64 * 64
            + (0x80 + r % 64) % 64 = r := by omega
        rw [List.cons_append, List.cons_append, List.singleton_append, runesFrom_zero_cons,
          decode_three (byte (0xE0 + r / 4096)) (byte (0x80 + r / 64 % 64))
            (byte (0x80 + r % 64)) rest (by omega) (by omega)
            (by rw [e0, e1]; split <;> omega) (by rw [e0, e1]; split <;> omega) (by omega)
            (by omega), e0, e1, e2, hr, hc]
        rfl
      · rw [if_neg h3]
        have e0 : (byte (0xF0 + r / 262144)).val = 0xF0 + r / 262144 := by
          rw [byte_val]; omega
        have e1 : (byte (0x80 + r / 4096 % 64)).val = 0x80 + r / 4096 % 64 := by
          rw [byte_val]; omega
        have e2 : (byte (0x80 + r / 64 % 64)).val = 0x80 + r / 64 % 64 := by
          rw [byte_val]; omega
        have e3 : (byte (0x80 + r % 64)).val = 0x80 + r % 64 := by rw [byte_val]; omega
        have hr : (0xF0 + r / 262144) % 8 * 262144 + (0x80 + r / 4096 % 64) % 64 * 4096
            + (0x80 + r / 64 % 64) % 64 * 64 + (0x80 + r % 64) % 64 = r := by omega
        rw [List.cons_append, List.cons_append, List.cons_append, List.singleton_append,
          runesFrom_zero_cons,
          decode_four (byte (0xF0 + r / 262144)) (byte (0x80 + r / 4096 % 64))
            (byte (0x80 + r / 64 % 64)) (byte (0x80 + r % 64)) rest (by omega) (by omega)
            (by rw [e0, e1]; split <;> omega) (by rw [e0, e1]; split <;> omega) (by omega)
            (by omega) (by omega) (by omega), e0, e1, e2, e3, hr, hc]
        rfl

theorem runesFrom_lit : ∀ cs : List Char, runesFrom 0 (cs.flatMap fun c => encodeRune c.toNat) = cs
  | [] => rfl
  | c :: cs => by
    rw [List.flatMap_cons, runesFrom_encodeRune, runesFrom_lit cs]

theorem jsonString_lit (s : String) : jsonString (lit s) = s := by
  cases s with
  | mk cs => simp only [jsonString, lit, runesFrom_lit]

theorem lit_injective {s t : String} (h : lit s = lit t) : s = t := by
  rw [← jsonString_lit s, ← jsonString_lit t, h]

/-! ## Lemmas: base64 -/

theorem decodeSextet_encodeSextet (n : Nat) : decodeSextet (encodeSextet n) = n % 64 := by
  have h : ∀ i : Fin 64, decodeSextet (encodeStd.getD i.val 'A') = i.val := by decide
  have := h ⟨n % 64, Nat.mod_lt _ (by decide)⟩
  simpa [encodeSextet] using this

theorem encodeSextet_ne_padding (n : Nat) : encodeSextet n ≠ StdPadding := by
  have h : ∀ i : Fin 64, encodeStd.getD i.val 'A' ≠ StdPadding := by decide
  have := h ⟨n % 64, Nat.mod_lt _ (by decide)⟩
  simpa [encodeSextet] using this

theorem decodeChars_encodeChars : ∀ bs : List Byte, decodeChars (encodeChars bs) = bs
  | [] => rfl
  | [b0] => by
    have h0 := b0.isLt
    simp only [encodeChars, decodeChars, if_true, decodeSextet_encodeSextet]
    congr 1
    apply Fin.ext
    simp only [Fin.ofNat]
    omega
  | [b0, b1] => by
    have h0 := b0.isLt
    have h1 := b1.isLt
    simp only [encodeChars, decodeChars, if_true, decodeSextet_encodeSextet,
      if_neg (encodeSextet_ne_padding _)]
    congr 1
    · apply Fin.ext
      simp only [Fin.ofNat]
      omega
    · congr 1
      apply Fin.ext
      simp only [Fin.ofNat]
      omega
  | b0 :: b1 :: b2 :: rest => by
    have h0 := b0.isLt
    have h1 := b1.isLt
    have h2 := b2.isLt
    have ih := decodeChars_encodeChars rest
    simp only [encodeChars, decodeChars, decodeSextet_encodeSextet,
      if_neg (encodeSextet_ne_padding _), ih]
    congr 1
    · apply Fin.ext
      simp only [Fin.ofNat]
      omega
    · congr 1
      · apply Fin.ext
        simp only [Fin.ofNat]
        omega
      · congr 1
        apply Fin.ext
        simp only [Fin.ofNat]
        omega

theorem jsonString_EncodeToString (m : List Byte) :
    jsonString (EncodeToString m) = String.mk (encodeChars m) :=
  jsonString_lit _

theorem jsonString_EncodeToString_injective {m m' : List Byte}
    (h : jsonString (EncodeToString m) = jsonString (EncodeToString m')) : m = m' := by
  rw [jsonString_EncodeToString, jsonString_EncodeToString] at h
  have hc : encodeChars m = encodeChars m' := congrArg String.data h
  have := congrArg decodeChars hc
  simpa [decodeChars_encodeChars] using this

theorem EncodeToString_injective {m m' : List Byte}
    (h : EncodeToString m = EncodeToString m') : m = m' :=
  jsonString_EncodeToString_injective (congrArg jsonString h)

/-! ## Lemmas: strings and maps -/

theorem join_two (a b : String) : "/".intercalate [a, b] = a ++ "/" ++ b := rfl

theorem apiPath (p : String) : "/" ++ APIVersion ++ p = "/v1" ++ p := rfl

theorem keyPath (n : String) :
    "/" ++ APIVersion ++ "/".intercalate [transitKeyPathPart, n] = "/v1/transit/keys/" ++ n := by
  rw [join_two, ← String.append_assoc, ← String.append_assoc]
  rfl

theorem signPath (n : String) :
    "/" ++ APIVersion ++ "/".intercalate [transitSignPathPart, n] = "/v1/transit/sign/" ++ n := by
  rw [join_two, ← String.append_assoc, ← String.append_assoc]
  rfl

theorem verifyPath (n : String) :
    "/" ++ APIVersion ++ "/".intercalate [transitVerifyPathPart, n]
      = "/v1/transit/verify/" ++ n := by
  rw [join_two, ← String.append_assoc, ← String.append_assoc]
  rfl

theorem trimPrefix_append (pre k : String) : trimPrefix (pre ++ k) pre = some k := by
  simp [trimPrefix, String.data_append]

theorem trimPrefix_sign_verify (k : String) :
    trimPrefix ("/v1/transit/verify/" ++ k) "/v1/transit/sign/" = none := by
  simp [trimPrefix, String.data_append, List.isPrefixOf]

theorem lookup_filter_ne {α β : Type} [BEq α] [LawfulBEq α] (m : List (α × β)) (k k' : α)
    (h : k' ≠ k) : (m.filter (fun e => e.1 != k)).lookup k' = m.lookup k' := by
  induction m with
  | nil => rfl
  | cons e m ih =>
    obtain ⟨a, b⟩ := e
    by_cases ha : a = k
    · subst ha
      have hk : (k' == a) = false := by simpa using h
      simp [List.filter, List.lookup, hk, ih]
    · have hne : (a != k) = true := by simpa using ha
      simp only [List.filter, hne, List.lookup, ih]

theorem GoMap.get_set_self (m : GoMap) (k : GoString) (v : Value) :
    (m.set k v).get k = some v := by
  simp [GoMap.get, GoMap.set, List.lookup]

theorem GoMap.get_set_of_ne (m : GoMap) (k k' : GoString) (v : Value) (h : k' ≠ k) :
    (m.set k v).get k' = m.get k' := by
  have hk : (k' == k) = false := by simpa using h
  simp [GoMap.get, GoMap.set, List.lookup, hk, lookup_filter_ne m k k' h]

theorem Header.Get_Set_self (h : Header) (k v : String) : (h.Set k v).Get k = v := by
  simp [Header.Get, Header.Set, List.lookup]

theorem Header.Get_Set_of_ne (h : Header) (k k' v : String) (hne : k' ≠ k) :
    (h.Set k v).Get k' = h.Get k' := by
  have hk : (k' == k) = false := by simpa using hne
  simp [Header.Get, Header.Set, List.lookup, hk, lookup_filter_ne h k k' hne]

theorem jsonEncodeFields_cons_string (k x : GoString) (rest : GoMap) :
    jsonEncodeFields ((k, .string x) :: rest)
      = match jsonEncodeFields rest with
        | .ok js => .ok ((jsonString k, .str (jsonString x)) :: js)
        | .error e => .error e := by
  simp only [jsonEncodeFields, jsonEncode]
  cases jsonEncodeFields rest <;> rfl

theorem jsonEncodeFields_mem : ∀ (m : GoMap) (js : List (String × Json)),
    jsonEncodeFields m = .ok js →
    (∀ key v, (key, v) ∈ m → ∃ j, jsonEncode v = .ok j ∧ (jsonString key, j) ∈ js) ∧
    (∀ k j, (k, j) ∈ js → ∃ key v, (key, v) ∈ m ∧ k = jsonString key ∧ jsonEncode v = .ok j)
  | [], js, h => by
    simp only [jsonEncodeFields, Except.ok.injEq] at h
    subst h
    exact ⟨fun _ _ hm => absurd hm (List.not_mem_nil _),
      fun _ _ hm => absurd hm (List.not_mem_nil _)⟩
  | (a, x) :: m, js, h => by
    simp only [jsonEncodeFields] at h
    cases hx : jsonEncode x with
    | error e => simp [hx] at h
    | ok j0 =>
      cases hm : jsonEncodeFields m with
      | error e => simp [hx, hm] at h
      | ok js' =>
        simp only [hx, hm, Except.ok.injEq] at h
        subst h
        obtain ⟨ih1, ih2⟩ := jsonEncodeFields_mem m js' hm
        constructor
        · intro key v hmem
          rcases List.mem_cons.mp hmem with heq | hmem'
          · simp only [Prod.mk.injEq] at heq
            obtain ⟨rfl, rfl⟩ := heq
            exact ⟨j0, hx, List.mem_cons_self _ _⟩
          · obtain ⟨j, hj, hjs⟩ := ih1 key v hmem'
            exact ⟨j, hj, List.mem_cons_of_mem _ hjs⟩
        · intro k j hmem
          rcases List.mem_cons.mp hmem with heq | hmem'
          · simp only [Prod.mk.injEq] at heq
            obtain ⟨rfl, rfl⟩ := heq
            exact ⟨a, x, List.mem_cons_self _ _, rfl, hx⟩
          · obtain ⟨key, v, hkv, hk, hv⟩ := ih2 k j hmem'
            exact ⟨key, v, List.mem_cons_of_mem _ hkv, hk, hv⟩

theorem mem_filter_ne {m : GoMap} {k key : GoString} {v : Value} :
    (key, v) ∈ m.filter (fun e => e.1 != k) ↔ (key, v) ∈ m ∧ key ≠ k := by
  simp [List.mem_filter]

/-! ## Lemmas: `MakeRequest` -/

theorem MakeRequest_nil {σ : Type} (c : Client σ) (method p : String) (v : Target)
    (w : World σ) :
    c.MakeRequest method p .nil v w = dispatch c method ("/v1" ++ p) none v w := by
  simp only [Client.MakeRequest, Value.isNil, Bool.not_true, Bool.false_and, Bool.and_false,
    Bool.false_eq_true, if_false, apiPath, dispatch, decorate]

theorem MakeRequest_post {σ : Type} (c : Client σ) (p : String) (data : Value) (b : Json)
    (hnil : data.isNil = false) (henc : jsonEncode data = .ok b) (v : Target) (w : World σ) :
    c.MakeRequest "POST" p data v w = dispatch c "POST" ("/v1" ++ p) (some b) v w := by
  have h1 : ("POST" == "GET") = false := by decide
  have h2 : ("POST" == "POST") = true := by decide
  simp only [Client.MakeRequest, hnil, henc, h1, h2, Bool.not_false, Bool.true_and,
    Bool.true_or, Bool.false_and, Bool.false_eq_true, if_true, if_false, apiPath, dispatch,
    decorate]

theorem MakeRequest_put {σ : Type} (c : Client σ) (p : String) (data : Value) (b : Json)
    (hnil : data.isNil = false) (henc : jsonEncode data = .ok b) (v : Target) (w : World σ) :
    c.MakeRequest "PUT" p data v w = dispatch c "PUT" ("/v1" ++ p) (some b) v w := by
  have h1 : ("PUT" == "GET") = false := by decide
  have h2 : ("PUT" == "PUT") = true := by decide
  simp only [Client.MakeRequest, hnil, henc, h1, h2, Bool.not_false, Bool.true_and,
    Bool.or_true, Bool.false_and, Bool.false_eq_true, if_true, if_false, apiPath, dispatch,
    decorate]

theorem MakeRequest_write_error {σ : Type} (c : Client σ) (method p : String) (data : Value)
    (e : Error) (hm : method = "POST" ∨ method = "PUT") (hnil : data.isNil = false)
    (henc : jsonEncode data = .error e) (v : Target) (w : World σ) :
    c.MakeRequest method p data v w = ((some e, v), w) := by
  have h : (method == "POST" || method == "PUT") = true := by
    rcases hm with h | h <;> subst h <;> decide
  simp only [Client.MakeRequest, hnil, henc, h, Bool.not_false, Bool.true_and, if_true]

theorem MakeRequest_get_values {σ : Type} (c : Client σ) (p : String) (q : Option Values)
    (v : Target) (w : World σ) :
    c.MakeRequest "GET" p (.values q) v w
      = dispatch c "GET" ("/v1" ++ p ++ "?" ++ Values.Encode q) none v w := by
  have h1 : ("GET" == "POST") = false := by decide
  have h2 : ("GET" == "PUT") = false := by decide
  have h3 : ("GET" == "GET") = true := by decide
  have hp : "/" ++ APIVersion ++ (p ++ "?" ++ Values.Encode q)
      = "/v1" ++ p ++ "?" ++ Values.Encode q := by
    rw [apiPath, ← String.append_assoc, ← String.append_assoc]
  simp only [Client.MakeRequest, Value.isNil, h1, h2, h3, Bool.not_false, Bool.true_and,
    Bool.or_false, Bool.false_eq_true, if_true, if_false, hp, dispatch, decorate]

theorem dispatch_built {σ : Type} (c : Client σ) (method path : String) (r : Option Json)
    (v : Target) (w : World σ) :
    (dispatch c method path r v w).2.built
      = w.built ++ [{ Method := method, Path := path, Body := r }] := by
  unfold dispatch
  split <;> rfl

theorem MakeRequest_cases {σ : Type} (c : Client σ) (method p : String) (data : Value)
    (v : Target) (w : World σ) :
    (∃ e, c.MakeRequest method p data v w = ((some e, v), w)) ∨
    ∃ rest body, c.MakeRequest method p data v w
      = dispatch c method ("/v1" ++ rest) body v w := by
  unfold Client.MakeRequest
  simp only [apiPath]
  split
  · exact Or.inl ⟨_, rfl⟩
  · exact Or.inr ⟨_, _, rfl⟩

/-! ## The resource operations -/

theorem DeleteResource_world {σ : Type} (c : Client σ) (pathPart sid : String) (w : World σ) :
    (c.DeleteResource pathPart sid w).2
      = (c.MakeRequest "DELETE" (pathPart ++ "/" ++ sid) .nil .nil w).2 := by
  simp only [Client.DeleteResource, join_two]
  cases h : (c.MakeRequest "DELETE" (pathPart ++ "/" ++ sid) .nil .nil w).1.1 with
  | none => rfl
  | some e =>
    cases e with
    | other msg => rfl
    | rest rerr =>
      by_cases h4 : rerr.StatusCode = 404
      · simp [h4]
      · simp [h4]

/-- C1: `DeleteResource` returns nil exactly when the underlying DELETE request
on `pathPart + "/" + sid` succeeded or failed with a `*rest.Error` of status
404; in every other case it returns the very error `MakeRequest` returned. The
world it leaves is the one `MakeRequest` leaves. -/
theorem DeleteResource_suppresses_only_not_found {σ : Type} (c : Client σ)
    (pathPart sid : String) (w : World σ) :
    ((c.DeleteResource pathPart sid w).1 = none ↔
      ((c.MakeRequest "DELETE" (pathPart ++ "/" ++ sid) .nil .nil w).1.1 = none ∨
        ∃ rerr, (c.MakeRequest "DELETE" (pathPart ++ "/" ++ sid) .nil .nil w).1.1
            = some (.rest rerr) ∧ rerr.StatusCode = 404)) ∧
    (((c.MakeRequest "DELETE" (pathPart ++ "/" ++ sid) .nil .nil w).1.1 = none ∨
        ∃ rerr, (c.MakeRequest "DELETE" (pathPart ++ "/" ++ sid) .nil .nil w).1.1
            = some (.rest rerr) ∧ rerr.StatusCode = 404) ∨
      (c.DeleteResource pathPart sid w).1
        = (c.MakeRequest "DELETE" (pathPart ++ "/" ++ sid) .nil .nil w).1.1) ∧
    (c.DeleteResource pathPart sid w).2
      = (c.MakeRequest "DELETE" (pathPart ++ "/" ++ sid) .nil .nil w).2 := by
  simp only [Client.DeleteResource, join_two]
  cases h : (c.MakeRequest "DELETE" (pathPart ++ "/" ++ sid) .nil .nil w).1.1 with
  | none => simp
  | some e =>
    cases e with
    | other msg => simp
    | rest rerr =>
      by_cases h4 : rerr.StatusCode = 404
      · simp [h4]
      · simp [h4]

theorem isNil_eq_false_of_ne {data : Value} (h : data ≠ .nil) : data.isNil = false := by
  cases data <;> first | rfl | exact absurd rfl h

/-- C6 (counterexample): `ListResource` with an empty `url.Values` asks for the
path `"/v1/transit/keys?"`, a GET with nil data for `"/v1/transit/keys"`. -/
theorem ListResource_empty_query_counterexample :
    (exampleClient.ListResource "/transit/keys" (some []) .nil (World.fresh [])).2.built.map
        Call.Path = ["/v1/transit/keys?"] ∧
    (exampleClient.MakeRequest "GET" "/transit/keys" .nil .nil (World.fresh [])).2.built.map
        Call.Path = ["/v1/transit/keys"] ∧
    (exampleClient.ListResource "/transit/keys" (some []) .nil (World.fresh [])).2.built.map
        Call.Path ≠
      (exampleClient.MakeRequest "GET" "/transit/keys" .nil .nil (World.fresh [])).2.built.map
        Call.Path := by
  decide

/-- C6 (amended): for every path `p`, `ListResource` with a `url.Values` that is
empty or nil asks for `"/v1" + p + "?"`, which is the path `"/v1" + p` of a GET
with nil data followed by a `?` and an empty query string. -/
theorem ListResource_empty_query_path {σ : Type} (c : Client σ) (p : String) (v : Target)
    (w : World σ) :
    (c.ListResource p (some []) v w).2.built
      = w.built ++ [{ Method := "GET", Path := "/v1" ++ p ++ "?", Body := none }] ∧
    (c.ListResource p none v w).2.built
      = w.built ++ [{ Method := "GET", Path := "/v1" ++ p ++ "?", Body := none }] ∧
    (c.MakeRequest "GET" p .nil v w).2.built
      = w.built ++ [{ Method := "GET", Path := "/v1" ++ p, Body := none }] := by
  have h1 : Values.Encode (some []) = "" := rfl
  have h2 : Values.Encode none = "" := rfl
  refine ⟨?_, ?_, ?_⟩
  · rw [Client.ListResource, MakeRequest_get_values, dispatch_built, h1, String.append_empty]
  · rw [Client.ListResource, MakeRequest_get_values, dispatch_built, h2, String.append_empty]
  · rw [MakeRequest_nil, dispatch_built]

/-- C7 (counterexample): `CreateResource` and `UpdateResource` called with a nil
map build a request whose body is the JSON document `null`, not a request
without a body. -/
theorem CreateResource_nil_map_counterexample :
    (exampleClient.CreateResource "/transit/keys" none .nil (World.fresh [])).2.built.map
        Call.Body = [some Json.null] ∧
    (exampleClient.UpdateResource "/transit/keys" "my-key" none .nil
        (World.fresh [])).2.built.map Call.Body = [some Json.null] :=
  ⟨rfl, rfl⟩

/-- C7 (amended): for POST and PUT, the request is built without a body only
when `data` is the nil interface; for every other `data` the body is the JSON
encoding of `data`, and when `data` has no JSON encoding `MakeRequest` returns
the encode error and leaves the world as it was (nothing built, nothing sent).
A nil map passed to `CreateResource` or `UpdateResource` is not the nil
interface: the body is then the JSON document `null`. -/
theorem MakeRequest_body_rule {σ : Type} (c : Client σ) (method p id : String) (data : Value)
    (v : Target) (w : World σ) (hm : method = "POST" ∨ method = "PUT") :
    (data = .nil → (c.MakeRequest method p data v w).2.built
        = w.built ++ [{ Method := method, Path := "/v1" ++ p, Body := none }]) ∧
    (∀ b, data ≠ .nil → jsonEncode data = .ok b →
      (c.MakeRequest method p data v w).2.built
        = w.built ++ [{ Method := method, Path := "/v1" ++ p, Body := some b }]) ∧
    (∀ e, data ≠ .nil → jsonEncode data = .error e →
      c.MakeRequest method p data v w = ((some e, v), w)) ∧
    (c.CreateResource p none v w).2.built
      = w.built ++ [{ Method := "POST", Path := "/v1" ++ p, Body := some .null }] ∧
    (c.UpdateResource p id none v w).2.built
      = w.built ++ [{ Method := "POST", Path := "/v1" ++ p ++ "/" ++ id,
                      Body := some .null }] := by
  refine ⟨?_, ?_, ?_, ?_, ?_⟩
  · intro h
    subst h
    rw [MakeRequest_nil, dispatch_built]
  · intro b hne henc
    rcases hm with h | h <;> subst h
    · rw [MakeRequest_post c p data b (isNil_eq_false_of_ne hne) henc, dispatch_built]
    · rw [MakeRequest_put c p data b (isNil_eq_false_of_ne hne) henc, dispatch_built]
  · intro e hne henc
    exact MakeRequest_write_error c method p data e hm (isNil_eq_false_of_ne hne) henc v w
  · rw [Client.CreateResource, MakeRequest_post c p (.map none) .null rfl rfl, dispatch_built]
  · rw [Client.UpdateResource, join_two,
      MakeRequest_post c (p ++ "/" ++ id) (.map none) .null rfl rfl, dispatch_built,
      ← String.append_assoc, ← String.append_assoc]

/-- C7 (witness): the body rule at a POST of the map `{"context": <channel>}`,
which has no JSON encoding. -/
theorem MakeRequest_body_rule_witness :
    ("POST" = "POST" ∨ "POST" = "PUT") ∧
    exampleClient.MakeRequest "POST" "/transit/keys" (.map (some badOptions)) .nil
        (World.fresh [])
      = ((some (.other "json: unsupported type: chan int"), .nil), World.fresh []) :=
  ⟨Or.inl rfl,
    (MakeRequest_body_rule exampleClient "POST" "/transit/keys" "my-key"
      (.map (some badOptions)) .nil (World.fresh []) (Or.inl rfl)).2.2.1
      (.other "json: unsupported type: chan int") (by intro h; cases h) rfl⟩

/-! ## Headers -/

theorem decorate_token (token : String) (req : Request) :
    (decorate token req).Header.Get "X-Vault-Token" = token := by
  have hne : "X-Vault-Token" ≠ "User-Agent" := by decide
  unfold decorate
  simp only []
  split
  · simp only [Header.Get_Set_of_ne _ _ _ _ hne, Header.Get_Set_self]
  · simp only [Header.Get_Set_of_ne _ _ _ _ hne, Header.Get_Set_self]

theorem decorate_userAgent (token : String) (req : Request) :
    (decorate token req).Header.Get "User-Agent"
      = if req.Header.Get "User-Agent" = "" then "vault-go/0.1"
        else "vault-go/0.1 " ++ req.Header.Get "User-Agent" := by
  have hne : "User-Agent" ≠ "X-Vault-Token" := by decide
  have hua : userAgent = "vault-go/0.1" := by decide
  have hua' : ∀ s : String, userAgent ++ " " ++ s = "vault-go/0.1 " ++ s := by
    intro s
    rw [hua]
    rfl
  unfold decorate
  simp only [Header.Get_Set_of_ne _ _ _ _ hne, beq_iff_eq]
  split
  · simp only [Header.Get_Set_self, hua]
  · simp only [Header.Get_Set_self, hua']

theorem decorate_rest (token : String) (req : Request) :
    (decorate token req).Method = req.Method ∧ (decorate token req).URL = req.URL ∧
      (decorate token req).Body = req.Body := by
  unfold decorate
  simp only []
  split <;> exact ⟨rfl, rfl, rfl⟩

/-- C8: a call of `MakeRequest` on a client made by `NewClient` with token
`token` either returns an error without calling `Do`, or hands exactly one
request to `Do`; that request is the one `NewRequest` built, with the header
`X-Vault-Token` equal to `token` and the header `User-Agent` equal to
`"vault-go/0.1"` when the built request had none (`Get` gives `""`) and to
`"vault-go/0.1 "` followed by the built request's value otherwise. Every
resource and Transit operation reaches the transport through such a call. -/
theorem header_invariant {σ : Type} (restClient : RestClient σ) (token : String)
    (method p id : String) (data : Value) (d : Option GoMap) (q : Option Values)
    (m : List Byte) (s : GoString) (v : Target) (w : World σ) :
    ((∃ e, ((NewClient restClient token).MakeRequest method p data v w).1.1 = some e ∧
        ((NewClient restClient token).MakeRequest method p data v w).2.sent = w.sent ∧
        ((NewClient restClient token).MakeRequest method p data v w).2.server = w.server) ∨
      ∃ path body built req, restClient.NewRequest method path body = .ok built ∧
        ((NewClient restClient token).MakeRequest method p data v w).2.sent = w.sent ++ [req] ∧
        req.Header.Get "X-Vault-Token" = token ∧
        (built.Header.Get "User-Agent" = "" → req.Header.Get "User-Agent" = "vault-go/0.1") ∧
        (built.Header.Get "User-Agent" ≠ "" → req.Header.Get "User-Agent"
          = "vault-go/0.1 " ++ built.Header.Get "User-Agent") ∧
        req.Method = built.Method ∧ req.URL = built.URL ∧ req.Body = built.Body) ∧
    ((NewClient restClient token).GetResource p id v w).2
      = ((NewClient restClient token).MakeRequest "GET" (p ++ "/" ++ id) .nil v w).2 ∧
    ((NewClient restClient token).CreateResource p d v w).2
      = ((NewClient restClient token).MakeRequest "POST" p (.map d) v w).2 ∧
    ((NewClient restClient token).UpdateResource p id d v w).2
      = ((NewClient restClient token).MakeRequest "POST" (p ++ "/" ++ id) (.map d) v w).2 ∧
    ((NewClient restClient token).ListResource p q v w).2
      = ((NewClient restClient token).MakeRequest "GET" p (.values q) v w).2 ∧
    ((NewClient restClient token).DeleteResource p id w).2
      = ((NewClient restClient token).MakeRequest "DELETE" (p ++ "/" ++ id) .nil .nil w).2 ∧
    ((NewClient restClient token).Transit.Create id d w).2
      = ((NewClient restClient token).MakeRequest "POST" ("/transit/keys" ++ "/" ++ id)
          (.map (some (entries d))) .nil w).2 ∧
    ((NewClient restClient token).Transit.Sign id m d w).2
      = ((NewClient restClient token).MakeRequest "POST" ("/transit/sign" ++ "/" ++ id)
          (.map (some ((entries d).set (lit "input") (.string (EncodeToString m)))))
          (.response (Response.withData (.signature { Signature := lit "" }))) w).2 ∧
    ((NewClient restClient token).Transit.VerifySignature id m s d w).2
      = ((NewClient restClient token).MakeRequest "POST" ("/transit/verify" ++ "/" ++ id)
          (.map (some (((entries d).set (lit "signature") (.string s)).set (lit "input")
            (.string (EncodeToString m)))))
          (.response (Response.withData (.valid { Valid := false }))) w).2 := by
  refine ⟨?_, rfl, rfl, rfl, rfl, ?_, rfl, rfl, rfl⟩
  · rcases MakeRequest_cases (NewClient restClient token) method p data v w with
      ⟨e, h⟩ | ⟨rest, body, h⟩
    · exact Or.inl ⟨e, by rw [h], by rw [h], by rw [h]⟩
    · rw [h]
      unfold dispatch
      cases hreq : (NewClient restClient token).rest.NewRequest method ("/v1" ++ rest) body with
      | error err => exact Or.inl ⟨err, rfl, rfl, rfl⟩
      | ok built =>
        refine Or.inr ⟨"/v1" ++ rest, body, built, decorate token built, hreq, rfl,
          decorate_token token built, ?_, ?_, decorate_rest token built⟩
        · intro hua
          rw [decorate_userAgent, if_pos hua]
        · intro hua
          rw [decorate_userAgent, if_neg hua]
  · exact DeleteResource_world (NewClient restClient token) p id w

/-! ## The caller's map -/

theorem jsonEncode_sign_nil (x : GoString) :
    jsonEncode (.map (some (GoMap.set (entries none) (lit "input") (.string x))))
      = .ok (.obj [("input", .str (jsonString x))]) := by
  simp only [entries, GoMap.set, List.filter, jsonEncode, jsonEncodeFields, jsonString_lit]

theorem jsonEncode_verify_nil (x s : GoString) :
    jsonEncode (.map (some ((GoMap.set (entries none) (lit "signature") (.string s)).set
        (lit "input") (.string x))))
      = .ok (.obj [("input", .str (jsonString x)), ("signature", .str (jsonString s))]) := by
  have hne : (lit "signature" != lit "input") = true := by decide
  simp only [entries, GoMap.set, List.filter, hne, jsonEncode, jsonEncodeFields, jsonString_lit]

/-- C10: `Sign` and `VerifySignature` write into a non-nil map of the caller:
whatever the transport does, after `Sign` the map holds the base64 encoding of
the message under `"input"` and its other entries as before, and after
`VerifySignature` it holds that and the signature under `"signature"`.
`Create` leaves the caller's map as it was. A nil map stays nil for the caller
and is replaced by an empty map before the request: the body is a JSON object,
not `null`. -/
theorem caller_map_effects {σ : Type} (c : Client σ) (k : String) (s : GoString)
    (m : List Byte) (d : GoMap) (w : World σ) :
    (∃ d', (c.Transit.Sign k m (some d) w).1.2.2 = some d' ∧
      d'.get (lit "input") = some (.string (EncodeToString m)) ∧
      ∀ key, key ≠ lit "input" → d'.get key = d.get key) ∧
    (∃ d', (c.Transit.VerifySignature k m s (some d) w).1.2.2 = some d' ∧
      d'.get (lit "input") = some (.string (EncodeToString m)) ∧
      d'.get (lit "signature") = some (.string s) ∧
      ∀ key, key ≠ lit "input" → key ≠ lit "signature" → d'.get key = d.get key) ∧
    (c.Transit.Create k (some d) w).1.2 = some d ∧
    (c.Transit.Create k none w).1.2 = none ∧
    (c.Transit.Sign k m none w).1.2.2 = none ∧
    (c.Transit.VerifySignature k m s none w).1.2.2 = none ∧
    (c.Transit.Create k none w).2.built
      = w.built ++ [{ Method := "POST", Path := "/v1/transit/keys/" ++ k,
                      Body := some (.obj []) }] ∧
    (c.Transit.Sign k m none w).2.built
      = w.built ++ [{ Method := "POST", Path := "/v1/transit/sign/" ++ k,
                      Body := some (.obj [("input", .str (jsonString (EncodeToString m)))]) }] ∧
    (c.Transit.VerifySignature k m s none w).2.built
      = w.built ++ [{ Method := "POST", Path := "/v1/transit/verify/" ++ k,
                      Body := some (.obj [("input", .str (jsonString (EncodeToString m))),
                        ("signature", .str (jsonString s))]) }] := by
  have hne : lit "signature" ≠ lit "input" := by decide
  have hk : "/v1" ++ (transitKeyPathPart ++ "/" ++ k) = "/v1/transit/keys/" ++ k := by
    rw [← keyPath, join_two, apiPath]
  have hs : "/v1" ++ (transitSignPathPart ++ "/" ++ k) = "/v1/transit/sign/" ++ k := by
    rw [← signPath, join_two, apiPath]
  have hv : "/v1" ++ (transitVerifyPathPart ++ "/" ++ k) = "/v1/transit/verify/" ++ k := by
    rw [← verifyPath, join_two, apiPath]
  refine ⟨⟨_, rfl, GoMap.get_set_self _ _ _, fun key h => GoMap.get_set_of_ne _ _ _ _ h⟩,
    ⟨_, rfl, GoMap.get_set_self _ _ _, ?_, ?_⟩, rfl, rfl, rfl, rfl, ?_, ?_, ?_⟩
  · rw [GoMap.get_set_of_ne _ _ _ _ hne, GoMap.get_set_self]
  · intro key h1 h2
    rw [GoMap.get_set_of_ne _ _ _ _ h1, GoMap.get_set_of_ne _ _ _ _ h2]
    rfl
  · simp only [TransitService.Create, Client.Transit, Client.UpdateResource, join_two]
    rw [MakeRequest_post c _ (.map (some (entries none))) (.obj []) rfl rfl, dispatch_built, hk]
  · simp only [TransitService.Sign, Client.Transit, Client.UpdateResource, join_two]
    rw [MakeRequest_post c _
      (.map (some (GoMap.set (entries none) (lit "input") (.string (EncodeToString m))))) _ rfl
      (jsonEncode_sign_nil (EncodeToString m)),
      dispatch_built, hs]
  · simp only [TransitService.VerifySignature, Client.Transit, Client.UpdateResource, join_two]
    rw [MakeRequest_post c _
      (.map (some ((GoMap.set (entries none) (lit "signature") (.string s)).set (lit "input")
        (.string (EncodeToString m))))) _ rfl
      (jsonEncode_verify_nil (EncodeToString m) s),
      dispatch_built, hv]

/-! ## Sign and VerifySignature -/

theorem jsonEncode_map_ok {m : GoMap} {js : List (String × Json)}
    (h : jsonEncodeFields m = .ok js) : jsonEncode (.map (some m)) = .ok (.obj js) := by
  simp only [jsonEncode, h]

theorem jsonEncode_map_error {m : GoMap} {e : Error}
    (h : jsonEncodeFields m = .error e) : jsonEncode (.map (some m)) = .error e := by
  simp only [jsonEncode, h]

theorem dispatch_ok {σ : Type} (c : Client σ) (method path : String) (r : Option Json)
    (v : Target) (w : World σ) (built : Request)
    (h : c.rest.NewRequest method path r = .ok built) :
    dispatch c method path r v w
      = ((c.rest.Do (decorate c.token built) v w.server).1,
          { built := w.built ++ [{ Method := method, Path := path, Body := r }],
            sent := w.sent ++ [decorate c.token built],
            server := (c.rest.Do (decorate c.token built) v w.server).2 }) := by
  simp only [dispatch, h]

theorem dispatch_error {σ : Type} (c : Client σ) (method path : String) (r : Option Json)
    (v : Target) (w : World σ) (e : Error)
    (h : c.rest.NewRequest method path r = .error e) :
    dispatch c method path r v w
      = ((some e, v),
          { built := w.built ++ [{ Method := method, Path := path, Body := r }],
            sent := w.sent, server := w.server }) := by
  simp only [dispatch, h]

theorem Sign_eq {σ : Type} (c : Client σ) (k : String) (m : List Byte) (d : Option GoMap)
    (w : World σ) (js : List (String × Json))
    (h : jsonEncodeFields ((entries d).set (lit "input") (.string (EncodeToString m))) = .ok js) :
    c.Transit.Sign k m d w
      = (((match (dispatch c "POST" ("/v1/transit/sign/" ++ k) (some (.obj js))
              (.response (Response.withData (.signature { Signature := lit "" }))) w).1.2 with
            | .response { Data := .signature sg, .. } => sg
            | _ => { Signature := lit "" }),
          (dispatch c "POST" ("/v1/transit/sign/" ++ k) (some (.obj js))
              (.response (Response.withData (.signature { Signature := lit "" }))) w).1.1,
          d.map fun _ => (entries d).set (lit "input") (.string (EncodeToString m))),
        (dispatch c "POST" ("/v1/transit/sign/" ++ k) (some (.obj js))
              (.response (Response.withData (.signature { Signature := lit "" }))) w).2) := by
  have hs : "/v1" ++ (transitSignPathPart ++ "/" ++ k) = "/v1/transit/sign/" ++ k := by
    rw [← signPath, join_two, apiPath]
  simp only [TransitService.Sign, Client.Transit, Client.UpdateResource, join_two]
  rw [MakeRequest_post c _ (.map (some ((entries d).set (lit "input") (.string (EncodeToString m)))))
    (.obj js) rfl (jsonEncode_map_ok h), hs]

theorem Sign_error {σ : Type} (c : Client σ) (k : String) (m : List Byte) (d : Option GoMap)
    (w : World σ) (e : Error)
    (h : jsonEncodeFields ((entries d).set (lit "input") (.string (EncodeToString m))) = .error e) :
    c.Transit.Sign k m d w
      = (({ Signature := lit "" }, some e,
          d.map fun _ => (entries d).set (lit "input") (.string (EncodeToString m))), w) := by
  simp only [TransitService.Sign, Client.Transit, Client.UpdateResource, join_two]
  rw [MakeRequest_write_error c "POST" _
    (.map (some ((entries d).set (lit "input") (.string (EncodeToString m))))) e (Or.inl rfl) rfl
    (jsonEncode_map_error h)]
  rfl

theorem VerifySignature_eq {σ : Type} (c : Client σ) (k : String) (s : GoString) (m : List Byte)
    (d : Option GoMap) (w : World σ) (js : List (String × Json))
    (h : jsonEncodeFields (((entries d).set (lit "signature") (.string s)).set (lit "input")
      (.string (EncodeToString m))) = .ok js) :
    c.Transit.VerifySignature k m s d w
      = (((match (dispatch c "POST" ("/v1/transit/verify/" ++ k) (some (.obj js))
              (.response (Response.withData (.valid { Valid := false }))) w).1.2 with
            | .response { Data := .valid x, .. } => x.Valid
            | _ => false),
          (dispatch c "POST" ("/v1/transit/verify/" ++ k) (some (.obj js))
              (.response (Response.withData (.valid { Valid := false }))) w).1.1,
          d.map fun _ => ((entries d).set (lit "signature") (.string s)).set (lit "input")
            (.string (EncodeToString m))),
        (dispatch c "POST" ("/v1/transit/verify/" ++ k) (some (.obj js))
              (.response (Response.withData (.valid { Valid := false }))) w).2) := by
  have hv : "/v1" ++ (transitVerifyPathPart ++ "/" ++ k) = "/v1/transit/verify/" ++ k := by
    rw [← verifyPath, join_two, apiPath]
  simp only [TransitService.VerifySignature, Client.Transit, Client.UpdateResource, join_two]
  rw [MakeRequest_post c _ (.map (some (((entries d).set (lit "signature") (.string s)).set (lit "input")
    (.string (EncodeToString m))))) (.obj js) rfl (jsonEncode_map_ok h), hv]
  generalize (dispatch c "POST" ("/v1/transit/verify/" ++ k) (some (.obj js))
              (.response (Response.withData (.valid { Valid := false }))) w) = res
  obtain ⟨⟨err, t⟩, w'⟩ := res
  cases t with
  | nil => rfl
  | response r =>
    obtain ⟨dr, a1, a2, a3, a4, a5, a6⟩ := r
    cases dr <;> rfl

theorem VerifySignature_error {σ : Type} (c : Client σ) (k : String) (s : GoString) (m : List Byte)
    (d : Option GoMap) (w : World σ) (e : Error)
    (h : jsonEncodeFields (((entries d).set (lit "signature") (.string s)).set (lit "input")
      (.string (EncodeToString m))) = .error e) :
    c.Transit.VerifySignature k m s d w
      = ((false, some e,
          d.map fun _ => ((entries d).set (lit "signature") (.string s)).set (lit "input")
            (.string (EncodeToString m))), w) := by
  simp only [TransitService.VerifySignature, Client.Transit, Client.UpdateResource, join_two]
  rw [MakeRequest_write_error c "POST" _
    (.map (some (((entries d).set (lit "signature") (.string s)).set (lit "input")
      (.string (EncodeToString m))))) e (Or.inl rfl) rfl (jsonEncode_map_error h)]
  rfl

theorem signPayload_encode (d : Option GoMap) (x : GoString) :
    jsonEncodeFields ((entries d).set (lit "input") (.string x))
      = match jsonEncodeFields ((entries d).filter fun e => e.1 != lit "input") with
        | .ok rest => .ok (("input", .str (jsonString x)) :: rest)
        | .error e => .error e := by
  rw [GoMap.set, jsonEncodeFields_cons_string, jsonString_lit]

theorem verifyPayload_encode (d : Option GoMap) (s x : GoString) :
    jsonEncodeFields (((entries d).set (lit "signature") (.string s)).set (lit "input")
        (.string x))
      = match jsonEncodeFields
            (((entries d).filter fun e => e.1 != lit "signature").filter
              fun e => e.1 != lit "input") with
        | .ok rest =>
          .ok (("input", .str (jsonString x)) :: ("signature", .str (jsonString s)) :: rest)
        | .error e => .error e := by
  have hne : (lit "signature" != lit "input") = true := by decide
  rw [GoMap.set, GoMap.set, jsonEncodeFields_cons_string, jsonString_lit]
  simp only [List.filter, hne]
  rw [jsonEncodeFields_cons_string, jsonString_lit]
  cases jsonEncodeFields
    (((entries d).filter fun e => e.1 != lit "signature").filter fun e => e.1 != lit "input")
    <;> rfl

theorem signPayload_encoded {d : Option GoMap} {x : GoString} {js : List (String × Json)}
    (h : jsonEncodeFields ((entries d).set (lit "input") (.string x)) = .ok js) :
    ∃ rest, jsonEncodeFields ((entries d).filter fun e => e.1 != lit "input") = .ok rest ∧
      js = ("input", .str (jsonString x)) :: rest := by
  rw [signPayload_encode] at h
  cases hr : jsonEncodeFields ((entries d).filter fun e => e.1 != lit "input") with
  | error e =>
    rw [hr] at h
    cases h
  | ok rest =>
    rw [hr] at h
    simp only [Except.ok.injEq] at h
    exact ⟨rest, rfl, h.symm⟩

theorem verifyPayload_encoded {d : Option GoMap} {s x : GoString} {js : List (String × Json)}
    (h : jsonEncodeFields (((entries d).set (lit "signature") (.string s)).set (lit "input")
        (.string x)) = .ok js) :
    ∃ rest, jsonEncodeFields
        (((entries d).filter fun e => e.1 != lit "signature").filter
          fun e => e.1 != lit "input") = .ok rest ∧
      js = ("input", .str (jsonString x)) :: ("signature", .str (jsonString s)) :: rest := by
  rw [verifyPayload_encode] at h
  cases hr : jsonEncodeFields
      (((entries d).filter fun e => e.1 != lit "signature").filter
        fun e => e.1 != lit "input") with
  | error e =>
    rw [hr] at h
    cases h
  | ok rest =>
    rw [hr] at h
    simp only [Except.ok.injEq] at h
    exact ⟨rest, rfl, h.symm⟩

/-- C4 (counterexample): three inputs at which `Sign` does not do what the
claim says. With the option map `{"context": <chan int>}` it calls neither
`NewRequest` nor `Do` and returns the encode error. With the key `"a%zz"` the
example rest client refuses the path and no request is handed to `Do`. With
the option map `{"context": "\xff"}` the entry is not transmitted unchanged:
the body carries U+FFFD under `"context"`. -/
theorem Sign_unencodable_counterexample :
    ((exampleClient.Transit.Sign "my-key" exampleMessage (some badOptions)
        (World.fresh [])).2.built.length = 0 ∧
      (exampleClient.Transit.Sign "my-key" exampleMessage (some badOptions)
        (World.fresh [])).2.sent.length = 0 ∧
      (exampleClient.Transit.Sign "my-key" exampleMessage (some badOptions)
        (World.fresh [])).1.2.1 = some (.other "json: unsupported type: chan int") ∧
      (exampleClient.Transit.Sign "my-key" exampleMessage (some badOptions)
        (World.fresh [])).1.1 = { Signature := [] }) ∧
    ((exampleClient.Transit.Sign "a%zz" exampleMessage none
        (World.fresh [])).2.sent.length = 0 ∧
      (exampleClient.Transit.Sign "a%zz" exampleMessage none
        (World.fresh [])).1.2.1 = some (.other "invalid URL escape")) ∧
    (exampleClient.Transit.Sign "my-key" exampleMessage (some invalidOptions)
        (World.fresh [])).2.sent.map Request.Body
      = [some (.obj [("input", .str "QWxhcw=="), ("context", .str "\uFFFD")])] := by
  refine ⟨by decide, by decide, rfl⟩

/-- C4 (amended): let `payload` be the option map `d` (nil read as empty) with
`"input"` set to the standard base64 encoding of `m`. If `payload` has no JSON
encoding, `Sign` returns the encode error and an empty signature and leaves the
world as it was. If it has one, `Sign` asks the rest client once for a POST
request to `"/v1/transit/sign/" + k` with the encoded payload as body: the
member `"input"` is the base64 text, the caller's own `"input"` entry is not
sent, and the other members are exactly the other entries of `d`, each as
`encoding/json` writes it (invalid UTF-8 in a key or a string becomes U+FFFD).
When `NewRequest` fails, no request is handed to `Do` and `Sign` returns that
error and an empty signature. When it succeeds, `Sign` hands exactly one
request to `Do`, the one `NewRequest` built; the error returned is the one `Do`
returned, and the returned `Signature` is the one found in the `Data` field of
the decoded `Response`. -/
theorem Sign_request_shape {σ : Type} (c : Client σ) (k : String) (m : List Byte)
    (d : Option GoMap) (w : World σ) :
    (∀ e, jsonEncodeFields ((entries d).set (lit "input") (.string (EncodeToString m)))
        = .error e →
      c.Transit.Sign k m d w
        = (({ Signature := lit "" }, some e,
            d.map fun _ => (entries d).set (lit "input") (.string (EncodeToString m))), w)) ∧
    (∀ js, jsonEncodeFields ((entries d).set (lit "input") (.string (EncodeToString m)))
        = .ok js →
      (c.Transit.Sign k m d w).2.built
        = w.built ++ [{ Method := "POST", Path := "/v1/transit/sign/" ++ k,
                        Body := some (.obj js) }] ∧
      ("input", Json.str (String.mk (encodeChars m))) ∈ js ∧
      (∀ key v, (key, v) ∈ entries d → key ≠ lit "input" →
        ∃ j, jsonEncode v = .ok j ∧ (jsonString key, j) ∈ js) ∧
      (∀ name j, (name, j) ∈ js →
        (name = "input" ∧ j = .str (String.mk (encodeChars m))) ∨
        ∃ key v, (key, v) ∈ entries d ∧ key ≠ lit "input" ∧ name = jsonString key ∧
          jsonEncode v = .ok j) ∧
      (∀ e, c.rest.NewRequest "POST" ("/v1/transit/sign/" ++ k) (some (.obj js)) = .error e →
        (c.Transit.Sign k m d w).2.sent = w.sent ∧
        (c.Transit.Sign k m d w).2.server = w.server ∧
        (c.Transit.Sign k m d w).1.1 = { Signature := lit "" } ∧
        (c.Transit.Sign k m d w).1.2.1 = some e) ∧
      (∀ built, c.rest.NewRequest "POST" ("/v1/transit/sign/" ++ k) (some (.obj js))
          = .ok built →
        ∃ req, (c.Transit.Sign k m d w).2.sent = w.sent ++ [req] ∧
          req.Method = built.Method ∧ req.URL = built.URL ∧ req.Body = built.Body ∧
          (c.Transit.Sign k m d w).1.2.1
            = (c.rest.Do req
                (.response (Response.withData (.signature { Signature := lit "" })))
                w.server).1.1 ∧
          ∀ r sg,
            (c.rest.Do req
                (.response (Response.withData (.signature { Signature := lit "" })))
                w.server).1.2 = .response r →
            r.Data = .signature sg → (c.Transit.Sign k m d w).1.1 = sg)) := by
  refine ⟨fun e h => Sign_error c k m d w e h, fun js h => ?_⟩
  rw [Sign_eq c k m d w js h]
  obtain ⟨rest, hrest, hjs⟩ := signPayload_encoded h
  obtain ⟨hfwd, hbwd⟩ := jsonEncodeFields_mem _ _ hrest
  rw [jsonString_EncodeToString] at hjs
  refine ⟨dispatch_built _ _ _ _ _ _, ?_, ?_, ?_, ?_, ?_⟩
  · rw [hjs]
    exact List.mem_cons_self _ _
  · intro key v hmem hne
    obtain ⟨j, hj, hmemj⟩ := hfwd key v (mem_filter_ne.mpr ⟨hmem, hne⟩)
    exact ⟨j, hj, by rw [hjs]; exact List.mem_cons_of_mem _ hmemj⟩
  · intro name j hmem
    rw [hjs] at hmem
    rcases List.mem_cons.mp hmem with heq | hmem'
    · simp only [Prod.mk.injEq] at heq
      exact Or.inl heq
    · obtain ⟨key, v, hkv, hk, hv⟩ := hbwd name j hmem'
      obtain ⟨h1, h2⟩ := mem_filter_ne.mp hkv
      exact Or.inr ⟨key, v, h1, h2, hk, hv⟩
  · intro e he
    rw [dispatch_error _ _ _ _ _ _ e he]
    exact ⟨rfl, rfl, rfl, rfl⟩
  · intro built hb
    rw [dispatch_ok _ _ _ _ _ _ built hb]
    refine ⟨decorate c.token built, rfl, (decorate_rest _ _).1, (decorate_rest _ _).2.1,
      (decorate_rest _ _).2.2, rfl, ?_⟩
    intro r sg hr hd
    simp only [hr]
    obtain ⟨dr, a1, a2, a3, a4, a5, a6⟩ := r
    simp only at hd
    subst hd
    rfl

/-- C5 (counterexample): three inputs at which `VerifySignature` does not do
what the claim says. With the option map `{"context": <chan int>}` it calls
neither `NewRequest` nor `Do` and returns false and the encode error. With the
key `"a%zz"` the example rest client refuses the path and no request is handed
to `Do`. With the signature `"\xff\xfe"` the member `"signature"` of the body
is not that string: it is U+FFFD U+FFFD. -/
theorem VerifySignature_unencodable_counterexample :
    ((exampleClient.Transit.VerifySignature "my-key" exampleMessage (lit "vault:v1:abc")
        (some badOptions) (World.fresh [])).2.built.length = 0 ∧
      (exampleClient.Transit.VerifySignature "my-key" exampleMessage (lit "vault:v1:abc")
        (some badOptions) (World.fresh [])).2.sent.length = 0 ∧
      (exampleClient.Transit.VerifySignature "my-key" exampleMessage (lit "vault:v1:abc")
        (some badOptions) (World.fresh [])).1.2.1
          = some (.other "json: unsupported type: chan int") ∧
      (exampleClient.Transit.VerifySignature "my-key" exampleMessage (lit "vault:v1:abc")
        (some badOptions) (World.fresh [])).1.1 = false) ∧
    ((exampleClient.Transit.VerifySignature "a%zz" exampleMessage (lit "vault:v1:abc") none
        (World.fresh [])).2.sent.length = 0 ∧
      (exampleClient.Transit.VerifySignature "a%zz" exampleMessage (lit "vault:v1:abc") none
        (World.fresh [])).1.2.1 = some (.other "invalid URL escape")) ∧
    (exampleClient.Transit.VerifySignature "my-key" exampleMessage invalidSignature none
        (World.fresh [])).2.sent.map Request.Body
      = [some (.obj [("input", .str "QWxhcw=="), ("signature", .str "\uFFFD\uFFFD")])] := by
  refine ⟨by decide, by decide, rfl⟩

/-- C5 (amended): let `payload` be the option map `d` (nil read as empty) with
`"signature"` set to `s` and `"input"` set to the standard base64 encoding of
`m`. If `payload` has no JSON encoding, `VerifySignature` returns false and the
encode error and leaves the world as it was. If it has one, `VerifySignature`
asks the rest client once for a POST request to `"/v1/transit/verify/" + k`
with the encoded payload as body: the member `"input"` is the base64 text, the
member `"signature"` is `s` as `encoding/json` writes it (`s` itself when `s`
is valid UTF-8, U+FFFD in place of every invalid byte otherwise), the caller's
own entries under these two keys are not sent, and the other members are
exactly the other entries of `d`, each as `encoding/json` writes it. When
`NewRequest` fails, no request is handed to `Do` and the boolean is false. When
it succeeds, `VerifySignature` hands exactly one request to `Do`, the one
`NewRequest` built; the error returned is the one `Do` returned, and the
boolean is the `Valid` flag found in the `Data` field of the decoded
`Response`. -/
theorem VerifySignature_request_shape {σ : Type} (c : Client σ) (k : String)
    (s : GoString) (m : List Byte) (d : Option GoMap) (w : World σ) :
    (∀ e, jsonEncodeFields (((entries d).set (lit "signature") (.string s)).set (lit "input")
        (.string (EncodeToString m))) = .error e →
      c.Transit.VerifySignature k m s d w
        = ((false, some e,
            d.map fun _ => ((entries d).set (lit "signature") (.string s)).set (lit "input")
              (.string (EncodeToString m))), w)) ∧
    (∀ js, jsonEncodeFields (((entries d).set (lit "signature") (.string s)).set (lit "input")
        (.string (EncodeToString m))) = .ok js →
      (c.Transit.VerifySignature k m s d w).2.built
        = w.built ++ [{ Method := "POST", Path := "/v1/transit/verify/" ++ k,
                        Body := some (.obj js) }] ∧
      ("input", Json.str (String.mk (encodeChars m))) ∈ js ∧
      ("signature", Json.str (jsonString s)) ∈ js ∧
      (∀ u, s = lit u → jsonString s = u) ∧
      (∀ key v, (key, v) ∈ entries d → key ≠ lit "input" → key ≠ lit "signature" →
        ∃ j, jsonEncode v = .ok j ∧ (jsonString key, j) ∈ js) ∧
      (∀ name j, (name, j) ∈ js →
        (name = "input" ∧ j = .str (String.mk (encodeChars m))) ∨
        (name = "signature" ∧ j = .str (jsonString s)) ∨
        ∃ key v, (key, v) ∈ entries d ∧ key ≠ lit "input" ∧ key ≠ lit "signature" ∧
          name = jsonString key ∧ jsonEncode v = .ok j) ∧
      (∀ e, c.rest.NewRequest "POST" ("/v1/transit/verify/" ++ k) (some (.obj js)) = .error e →
        (c.Transit.VerifySignature k m s d w).2.sent = w.sent ∧
        (c.Transit.VerifySignature k m s d w).2.server = w.server ∧
        (c.Transit.VerifySignature k m s d w).1.1 = false ∧
        (c.Transit.VerifySignature k m s d w).1.2.1 = some e) ∧
      (∀ built, c.rest.NewRequest "POST" ("/v1/transit/verify/" ++ k) (some (.obj js))
          = .ok built →
        ∃ req, (c.Transit.VerifySignature k m s d w).2.sent = w.sent ++ [req] ∧
          req.Method = built.Method ∧ req.URL = built.URL ∧ req.Body = built.Body ∧
          (c.Transit.VerifySignature k m s d w).1.2.1
            = (c.rest.Do req (.response (Response.withData (.valid { Valid := false })))
                w.server).1.1 ∧
          ∀ r x,
            (c.rest.Do req (.response (Response.withData (.valid { Valid := false })))
                w.server).1.2 = .response r →
            r.Data = .valid x → (c.Transit.VerifySignature k m s d w).1.1 = x.Valid)) := by
  refine ⟨fun e h => VerifySignature_error c k s m d w e h, fun js h => ?_⟩
  rw [VerifySignature_eq c k s m d w js h]
  obtain ⟨rest, hrest, hjs⟩ := verifyPayload_encoded h
  obtain ⟨hfwd, hbwd⟩ := jsonEncodeFields_mem _ _ hrest
  rw [jsonString_EncodeToString] at hjs
  refine ⟨dispatch_built _ _ _ _ _ _, ?_, ?_, ?_, ?_, ?_, ?_, ?_⟩
  · rw [hjs]
    exact List.mem_cons_self _ _
  · rw [hjs]
    exact List.mem_cons_of_mem _ (List.mem_cons_self _ _)
  · intro u hu
    rw [hu, jsonString_lit]
  · intro key v hmem h1 h2
    obtain ⟨j, hj, hmemj⟩ :=
      hfwd key v (mem_filter_ne.mpr ⟨mem_filter_ne.mpr ⟨hmem, h2⟩, h1⟩)
    exact ⟨j, hj, by
      rw [hjs]
      exact List.mem_cons_of_mem _ (List.mem_cons_of_mem _ hmemj)⟩
  · intro name j hmem
    rw [hjs] at hmem
    rcases List.mem_cons.mp hmem with heq | hmem'
    · simp only [Prod.mk.injEq] at heq
      exact Or.inl heq
    · rcases List.mem_cons.mp hmem' with heq | hmem''
      · simp only [Prod.mk.injEq] at heq
        exact Or.inr (Or.inl heq)
      · obtain ⟨key, v, hkv, hk, hv⟩ := hbwd name j hmem''
        obtain ⟨h1, h2⟩ := mem_filter_ne.mp hkv
        obtain ⟨h3, h4⟩ := mem_filter_ne.mp h1
        exact Or.inr (Or.inr ⟨key, v, h3, h2, h4, hk, hv⟩)
  · intro e he
    rw [dispatch_error _ _ _ _ _ _ e he]
    exact ⟨rfl, rfl, rfl, rfl⟩
  · intro built hb
    rw [dispatch_ok _ _ _ _ _ _ built hb]
    refine ⟨decorate c.token built, rfl, (decorate_rest _ _).1, (decorate_rest _ _).2.1,
      (decorate_rest _ _).2.2, rfl, ?_⟩
    intro r x hr hd
    simp only [hr]
    obtain ⟨dr, a1, a2, a3, a4, a5, a6⟩ := r
    simp only at hd
    subst hd
    rfl

/-! ## Verbs and paths -/

theorem dispatch_issues {σ : Type} (c : Client σ) (method path : String) (r : Option Json)
    (v : Target) (w : World σ) : issues c method path r w (dispatch c method path r v w).2 := by
  unfold issues dispatch
  cases h : c.rest.NewRequest method path r with
  | error e => exact ⟨rfl, rfl, rfl⟩
  | ok built => exact ⟨rfl, decorate c.token built, rfl, decorate_rest _ _⟩

theorem post_issues {σ : Type} (c : Client σ) (part : String) (x : Option GoMap) (t : Target)
    (w : World σ) :
    match jsonEncode (.map x) with
    | .ok b => issues c "POST" ("/v1" ++ part) (some b) w (c.MakeRequest "POST" part (.map x) t w).2
    | .error e => c.MakeRequest "POST" part (.map x) t w = ((some e, t), w) := by
  cases h : jsonEncode (.map x) with
  | ok b =>
    simp only []
    rw [MakeRequest_post c part (.map x) b rfl h]
    exact dispatch_issues _ _ _ _ _ _
  | error e => exact MakeRequest_write_error c "POST" part (.map x) e (Or.inl rfl) rfl h t w

/-- C9 (counterexample): two operations that issue no request. `Transit.Create`
with the option map `{"context": <chan int>}` returns the encode error before
any request is built, and `GetResource` with the identifier `"a%zz"` gets an
error from the example rest client, which refuses the path as `net/url` does. -/
theorem verb_mapping_counterexample :
    ((exampleClient.Transit.Create "my-key" (some badOptions) (World.fresh [])).2.built.length
        = 0 ∧
      (exampleClient.Transit.Create "my-key" (some badOptions) (World.fresh [])).2.sent.length
        = 0 ∧
      (exampleClient.Transit.Create "my-key" (some badOptions) (World.fresh [])).1.1
        = some (.other "json: unsupported type: chan int")) ∧
    ((exampleClient.GetResource "/transit/keys" "a%zz" .nil (World.fresh [])).2.sent.length = 0 ∧
      (exampleClient.GetResource "/transit/keys" "a%zz" .nil (World.fresh [])).1.1
        = some (.other "invalid URL escape")) := by
  decide

/-- C9 (amended): the verb and the path of every operation. `GetResource`,
`DeleteResource` and `ListResource` ask the rest client once for GET, DELETE
and GET on `"/v1" + p + "/" + id`, `"/v1" + p + "/" + id` and
`"/v1" + p + "?" + query`, where `query` is the `key=value` pairs of the
`url.Values`, escaped, sorted by key and joined by `&`. `CreateResource`,
`UpdateResource` and the three Transit operations ask for POST on `"/v1" + p`,
`"/v1" + p + "/" + id`, `"/v1/transit/keys/" + n`, `"/v1/transit/sign/" + n`
and `"/v1/transit/verify/" + n` when the payload has a JSON encoding, and
return the encode error without asking otherwise. In each case the request
that `NewRequest` builds is the one request handed to `Do`, and nothing is
handed to `Do` when `NewRequest` refuses. The client itself neither validates
nor escapes `p`, `id` and `n`, and every path it asks for starts with `"/v1"`. -/
theorem verb_and_path_mapping {σ : Type} (c : Client σ) (p id n : String)
    (d : Option GoMap) (q : Option Values) (m : List Byte) (s : GoString) (method : String)
    (data : Value) (v : Target) (w : World σ) :
    issues c "GET" ("/v1" ++ p ++ "/" ++ id) none w (c.GetResource p id v w).2 ∧
    issues c "DELETE" ("/v1" ++ p ++ "/" ++ id) none w (c.DeleteResource p id w).2 ∧
    issues c "GET" ("/v1" ++ p ++ "?" ++ Values.Encode q) none w (c.ListResource p q v w).2 ∧
    (match jsonEncode (.map d) with
      | .ok b => issues c "POST" ("/v1" ++ p) (some b) w (c.CreateResource p d v w).2
      | .error e => c.CreateResource p d v w = ((some e, v), w)) ∧
    (match jsonEncode (.map d) with
      | .ok b =>
        issues c "POST" ("/v1" ++ p ++ "/" ++ id) (some b) w (c.UpdateResource p id d v w).2
      | .error e => c.UpdateResource p id d v w = ((some e, v), w)) ∧
    (match jsonEncode (.map (some (entries d))) with
      | .ok b => issues c "POST" ("/v1/transit/keys/" ++ n) (some b) w (c.Transit.Create n d w).2
      | .error e => c.Transit.Create n d w = ((some e, d), w)) ∧
    (match jsonEncode (.map (some
          ((entries d).set (lit "input") (.string (EncodeToString m))))) with
      | .ok b => issues c "POST" ("/v1/transit/sign/" ++ n) (some b) w (c.Transit.Sign n m d w).2
      | .error e =>
        (c.Transit.Sign n m d w).2 = w ∧ (c.Transit.Sign n m d w).1.2.1 = some e) ∧
    (match jsonEncode (.map (some
          (((entries d).set (lit "signature") (.string s)).set (lit "input")
            (.string (EncodeToString m))))) with
      | .ok b =>
        issues c "POST" ("/v1/transit/verify/" ++ n) (some b) w
          (c.Transit.VerifySignature n m s d w).2
      | .error e =>
        (c.Transit.VerifySignature n m s d w).2 = w ∧
        (c.Transit.VerifySignature n m s d w).1.2.1 = some e) ∧
    ((∃ e, c.MakeRequest method p data v w = ((some e, v), w)) ∨
      ∃ rest body, issues c method ("/v1" ++ rest) body w (c.MakeRequest method p data v w).2) ∧
    (∀ key value : String,
      Values.Encode (some [(key, [value])]) = QueryEscape key ++ "=" ++ QueryEscape value) ∧
    Values.Encode (some [("b", ["1", "x y&z"]), ("a", ["é/"])]) = "a=%C3%A9%2F&b=1&b=x+y%26z" ∧
    Values.Encode (some []) = "" := by
  have hsid : ∀ a b : String, "/v1" ++ (a ++ "/" ++ b) = "/v1" ++ a ++ "/" ++ b := by
    intro a b
    rw [← String.append_assoc, ← String.append_assoc]
  have hk : "/v1" ++ (transitKeyPathPart ++ "/" ++ n) = "/v1/transit/keys/" ++ n := by
    rw [← keyPath, join_two, apiPath]
  have hs : "/v1" ++ (transitSignPathPart ++ "/" ++ n) = "/v1/transit/sign/" ++ n := by
    rw [← signPath, join_two, apiPath]
  have hv : "/v1" ++ (transitVerifyPathPart ++ "/" ++ n) = "/v1/transit/verify/" ++ n := by
    rw [← verifyPath, join_two, apiPath]
  refine ⟨?_, ?_, ?_, ?_, ?_, ?_, ?_, ?_, ?_, ?_, by decide, rfl⟩
  · rw [Client.GetResource, join_two, MakeRequest_nil, hsid]
    exact dispatch_issues _ _ _ _ _ _
  · rw [DeleteResource_world, MakeRequest_nil, hsid]
    exact dispatch_issues _ _ _ _ _ _
  · rw [Client.ListResource, MakeRequest_get_values]
    exact dispatch_issues _ _ _ _ _ _
  · exact post_issues c p d v w
  · have h := post_issues c (p ++ "/" ++ id) d v w
    rw [hsid] at h
    exact h
  · have h := post_issues c (transitKeyPathPart ++ "/" ++ n) (some (entries d)) .nil w
    rw [hk] at h
    cases henc : jsonEncode (.map (some (entries d))) with
    | ok b =>
      rw [henc] at h
      exact h
    | error e =>
      rw [henc] at h
      simp only [TransitService.Create, Client.Transit, Client.UpdateResource, join_two]
      simp only [] at h
      rw [h]
  · have h := post_issues c (transitSignPathPart ++ "/" ++ n)
      (some ((entries d).set (lit "input") (.string (EncodeToString m))))
      (.response (Response.withData (.signature { Signature := lit "" }))) w
    rw [hs] at h
    cases henc : jsonEncode (.map (some
        ((entries d).set (lit "input") (.string (EncodeToString m))))) with
    | ok b =>
      rw [henc] at h
      exact h
    | error e =>
      rw [henc] at h
      simp only [TransitService.Sign, Client.Transit, Client.UpdateResource, join_two]
      simp only [] at h
      rw [h]
      exact ⟨rfl, rfl⟩
  · have h := post_issues c (transitVerifyPathPart ++ "/" ++ n)
      (some (((entries d).set (lit "signature") (.string s)).set (lit "input")
        (.string (EncodeToString m))))
      (.response (Response.withData (.valid { Valid := false }))) w
    rw [hv] at h
    cases henc : jsonEncode (.map (some
        (((entries d).set (lit "signature") (.string s)).set (lit "input")
          (.string (EncodeToString m))))) with
    | ok b =>
      rw [henc] at h
      exact h
    | error e =>
      rw [henc] at h
      simp only [TransitService.VerifySignature, Client.Transit, Client.UpdateResource,
        join_two]
      simp only [] at h
      rw [h]
      exact ⟨rfl, rfl⟩
  · rcases MakeRequest_cases c method p data v w with ⟨e, h⟩ | ⟨rest, body, h⟩
    · exact Or.inl ⟨e, h⟩
    · refine Or.inr ⟨rest, body, ?_⟩
      rw [h]
      exact dispatch_issues _ _ _ _ _ _
  · intro key value
    simp [Values.Encode, sortKeys, insertKey, List.eraseDups, List.eraseDups.loop,
      String.intercalate, String.intercalate.go]

/-! ## The model server -/

theorem encodable_ok {v : Value} (h : encodable v = true) : ∃ j, jsonEncode v = .ok j := by
  unfold encodable at h
  cases hj : jsonEncode v with
  | ok j => exact ⟨j, rfl⟩
  | error e => simp [hj] at h

theorem encodable_fields {m : GoMap} (h : encodable (.map (some m)) = true) :
    ∃ js, jsonEncodeFields m = .ok js := by
  obtain ⟨j, hj⟩ := encodable_ok h
  simp only [jsonEncode] at hj
  cases hm : jsonEncodeFields m with
  | error e => simp [hm] at hj
  | ok js => exact ⟨js, rfl⟩

theorem Server.Do_sign (srv : Server) (k x : String) (rest : List (String × Json))
    (req : Request) (v : Target) (st : List Triple) (h1 : req.Method = "POST")
    (h2 : req.URL = "/v1/transit/sign/" ++ k)
    (h3 : req.Body = some (.obj (("input", .str x) :: rest))) :
    srv.Do req v st
      = ((none, decodeInto (.signature { Signature := lit (srv.sigOf st k x) }) v),
          st ++ [(k, x, srv.sigOf st k x)]) := by
  have hp : ("POST" != "POST") = false := by decide
  simp only [Server.Do, h1, h2, h3, hp, Bool.false_eq_true, if_false, trimPrefix_append,
    Request.field, Json.get, List.lookup, beq_self_eq_true]

theorem Server.Do_verify (srv : Server) (k x s : String) (rest : List (String × Json))
    (req : Request) (v : Target) (st : List Triple) (h1 : req.Method = "POST")
    (h2 : req.URL = "/v1/transit/verify/" ++ k)
    (h3 : req.Body = some (.obj (("input", .str x) :: ("signature", .str s) :: rest))) :
    srv.Do req v st
      = ((none, decodeInto (.valid { Valid := decide ((k, x, s) ∈ st) }) v), st) := by
  have hp : ("POST" != "POST") = false := by decide
  have hk : ("signature" == "input") = false := by decide
  simp only [Server.Do, h1, h2, h3, hp, Bool.false_eq_true, if_false, trimPrefix_sign_verify,
    trimPrefix_append, Request.field, Json.get, List.lookup, beq_self_eq_true, hk]

theorem Request.field_input (req : Request) (x : String) (rest : List (String × Json))
    (h : req.Body = some (.obj (("input", .str x) :: rest))) : req.field "input" = some x := by
  simp only [Request.field, h, Json.get, List.lookup, beq_self_eq_true]

theorem Request.field_signature (req : Request) (x s : String) (rest : List (String × Json))
    (h : req.Body = some (.obj (("input", .str x) :: ("signature", .str s) :: rest))) :
    req.field "signature" = some s := by
  have hk : ("signature" == "input") = false := by decide
  simp only [Request.field, h, Json.get, List.lookup, beq_self_eq_true, hk]

theorem Server.Sign_model (srv : Server)
    (newRequest : String → String → Option Json → Except Error Request) (token k : String)
    (m : List Byte) (d : Option GoMap) (w : World (List Triple))
    (hb : builds newRequest ("/v1/transit/sign/" ++ k))
    (hd : encodable (.map (some ((entries d).set (lit "input")
      (.string (EncodeToString m))))) = true) :
    ∃ rest req, req.Method = "POST" ∧ req.URL = "/v1/transit/sign/" ++ k ∧
      req.Body = some (.obj (("input", .str (String.mk (encodeChars m))) :: rest)) ∧
      (srv.client newRequest token).Transit.Sign k m d w
        = (({ Signature := lit (srv.sigOf w.server k (String.mk (encodeChars m))) }, none,
            d.map fun _ => (entries d).set (lit "input") (.string (EncodeToString m))),
          { built := w.built ++ [{ Method := "POST", Path := "/v1/transit/sign/" ++ k,
                                   Body := some (.obj (("input",
                                     .str (String.mk (encodeChars m))) :: rest)) }],
            sent := w.sent ++ [req],
            server := w.server ++ [(k, String.mk (encodeChars m),
              srv.sigOf w.server k (String.mk (encodeChars m)))] }) := by
  obtain ⟨js, hjs⟩ := encodable_fields hd
  obtain ⟨rest, _, hrest⟩ := signPayload_encoded hjs
  rw [jsonString_EncodeToString] at hrest
  obtain ⟨h, hnew⟩ := hb (some (.obj js))
  have hm := (decorate_rest token
    { Method := "POST", URL := "/v1/transit/sign/" ++ k, Body := some (.obj js), Header := h })
  refine ⟨rest, decorate token
    { Method := "POST", URL := "/v1/transit/sign/" ++ k, Body := some (.obj js), Header := h },
    hm.1, hm.2.1, by rw [hm.2.2, hrest], ?_⟩
  rw [Sign_eq _ k m d w js hjs, dispatch_ok _ _ _ _ _ _ _ hnew]
  have hc : (srv.client newRequest token).token = token := rfl
  have hdo : (srv.client newRequest token).rest.Do = srv.Do := rfl
  rw [hc, hdo, Server.Do_sign srv k (String.mk (encodeChars m)) rest _ _ _ hm.1 hm.2.1
    (by rw [hm.2.2, hrest]), hrest]
  rfl

theorem Server.VerifySignature_model (srv : Server)
    (newRequest : String → String → Option Json → Except Error Request) (token k : String)
    (s : GoString) (m : List Byte) (d : Option GoMap) (w : World (List Triple))
    (hb : builds newRequest ("/v1/transit/verify/" ++ k))
    (hd : encodable (.map (some (((entries d).set (lit "signature") (.string s)).set
      (lit "input") (.string (EncodeToString m))))) = true) :
    ∃ rest req, req.Method = "POST" ∧ req.URL = "/v1/transit/verify/" ++ k ∧
      req.Body = some (.obj (("input", .str (String.mk (encodeChars m))) ::
        ("signature", .str (jsonString s)) :: rest)) ∧
      (srv.client newRequest token).Transit.VerifySignature k m s d w
        = ((decide ((k, String.mk (encodeChars m), jsonString s) ∈ w.server), none,
            d.map fun _ => ((entries d).set (lit "signature") (.string s)).set (lit "input")
              (.string (EncodeToString m))),
          { built := w.built ++ [{ Method := "POST", Path := "/v1/transit/verify/" ++ k,
                                   Body := some (.obj (("input",
                                     .str (String.mk (encodeChars m))) ::
                                     ("signature", .str (jsonString s)) :: rest)) }],
            sent := w.sent ++ [req],
            server := w.server }) := by
  obtain ⟨js, hjs⟩ := encodable_fields hd
  obtain ⟨rest, _, hrest⟩ := verifyPayload_encoded hjs
  rw [jsonString_EncodeToString] at hrest
  obtain ⟨h, hnew⟩ := hb (some (.obj js))
  have hm := (decorate_rest token
    { Method := "POST", URL := "/v1/transit/verify/" ++ k, Body := some (.obj js),
      Header := h })
  refine ⟨rest, decorate token
    { Method := "POST", URL := "/v1/transit/verify/" ++ k, Body := some (.obj js),
      Header := h },
    hm.1, hm.2.1, by rw [hm.2.2, hrest], ?_⟩
  rw [VerifySignature_eq _ k s m d w js hjs, dispatch_ok _ _ _ _ _ _ _ hnew]
  have hc : (srv.client newRequest token).token = token := rfl
  have hdo : (srv.client newRequest token).rest.Do = srv.Do := rfl
  rw [hc, hdo, Server.Do_verify srv k (String.mk (encodeChars m)) (jsonString s) rest _ _ _
    hm.1 hm.2.1 (by rw [hm.2.2, hrest]), hrest]
  rfl

theorem encodable_verify_of (d : Option GoMap) (s s' x x' : GoString)
    (h : encodable (.map (some (((entries d).set (lit "signature") (.string s)).set
      (lit "input") (.string x)))) = true) :
    encodable (.map (some (((entries d).set (lit "signature") (.string s')).set
      (lit "input") (.string x')))) = true := by
  obtain ⟨js, hjs⟩ := encodable_fields h
  obtain ⟨rest, hrest, _⟩ := verifyPayload_encoded hjs
  simp only [encodable, jsonEncode, verifyPayload_encode, hrest]

/-- C2 (counterexample): two inputs at which the round trip fails. `Sign` for
the key `"my-key"` with no options succeeds, and `VerifySignature` of the
signature it returned, with the option map `{"context": <chan int>}`, returns
false and the encode error. For the key `"a%zz"` the example rest client
refuses both paths, as `net/url` does, and the verification returns false and
that error. -/
theorem roundtrip_unencodable_counterexample :
    ((exampleClient.Transit.Sign "my-key" exampleMessage none (World.fresh [])).1.2.1 = none ∧
      (exampleClient.Transit.VerifySignature "my-key" exampleMessage
        (exampleClient.Transit.Sign "my-key" exampleMessage none
          (World.fresh [])).1.1.Signature (some badOptions)
        (exampleClient.Transit.Sign "my-key" exampleMessage none
          (World.fresh [])).2).1.1 = false ∧
      (exampleClient.Transit.VerifySignature "my-key" exampleMessage
        (exampleClient.Transit.Sign "my-key" exampleMessage none
          (World.fresh [])).1.1.Signature (some badOptions)
        (exampleClient.Transit.Sign "my-key" exampleMessage none
          (World.fresh [])).2).1.2.1 = some (.other "json: unsupported type: chan int")) ∧
    ((exampleClient.Transit.VerifySignature "a%zz" exampleMessage
        (exampleClient.Transit.Sign "a%zz" exampleMessage none
          (World.fresh [])).1.1.Signature none
        (exampleClient.Transit.Sign "a%zz" exampleMessage none
          (World.fresh [])).2).1.1 = false ∧
      (exampleClient.Transit.VerifySignature "a%zz" exampleMessage
        (exampleClient.Transit.Sign "a%zz" exampleMessage none
          (World.fresh [])).1.1.Signature none
        (exampleClient.Transit.Sign "a%zz" exampleMessage none
          (World.fresh [])).2).1.2.1 = some (.other "invalid URL escape")) := by
  decide

/-- C2 (amended): the round trip, whenever both requests can be made. Let the
rest client build the POST requests for `"/v1/transit/sign/" + k` and
`"/v1/transit/verify/" + k` as asked, let the option map `d` with `"input"` set
have a JSON encoding, and let the option map `d'` with `"signature"` and
`"input"` set have one. Then, in every state of the model server,
`VerifySignature(k, m, Sign(k, m).Signature)` returns `(true, nil)`. The two
requests go to the two paths, carry the same `"input"`, the base64 encoding of
`m`, and the verify request carries under `"signature"` the string `Sign`
returned, unmodified. -/
theorem sign_verify_roundtrip (srv : Server)
    (newRequest : String → String → Option Json → Except Error Request) (token k : String)
    (m : List Byte) (d d' : Option GoMap) (w : World (List Triple))
    (hsign : builds newRequest ("/v1/transit/sign/" ++ k))
    (hverify : builds newRequest ("/v1/transit/verify/" ++ k))
    (hd : encodable (.map (some ((entries d).set (lit "input")
      (.string (EncodeToString m))))) = true)
    (hd' : encodable (.map (some (((entries d').set (lit "signature")
      (.string ((srv.client newRequest token).Transit.Sign k m d w).1.1.Signature)).set
        (lit "input") (.string (EncodeToString m))))) = true) :
    ((srv.client newRequest token).Transit.VerifySignature k m
        ((srv.client newRequest token).Transit.Sign k m d w).1.1.Signature d'
        ((srv.client newRequest token).Transit.Sign k m d w).2).1.1 = true ∧
    ((srv.client newRequest token).Transit.VerifySignature k m
        ((srv.client newRequest token).Transit.Sign k m d w).1.1.Signature d'
        ((srv.client newRequest token).Transit.Sign k m d w).2).1.2.1 = none ∧
    ((srv.client newRequest token).Transit.Sign k m d w).1.2.1 = none ∧
    ∃ signReq verifyReq,
      ((srv.client newRequest token).Transit.VerifySignature k m
        ((srv.client newRequest token).Transit.Sign k m d w).1.1.Signature d'
        ((srv.client newRequest token).Transit.Sign k m d w).2).2.sent
          = w.sent ++ [signReq, verifyReq] ∧
      signReq.Method = "POST" ∧ verifyReq.Method = "POST" ∧
      signReq.URL = "/v1/transit/sign/" ++ k ∧
      verifyReq.URL = "/v1/transit/verify/" ++ k ∧
      signReq.field "input" = some (String.mk (encodeChars m)) ∧
      verifyReq.field "input" = some (String.mk (encodeChars m)) ∧
      ∃ sent, verifyReq.field "signature" = some sent ∧
        lit sent = ((srv.client newRequest token).Transit.Sign k m d w).1.1.Signature := by
  obtain ⟨rest, signReq, hs1, hs2, hs3, hsign'⟩ :=
    Server.Sign_model srv newRequest token k m d w hsign hd
  rw [hsign'] at hd' ⊢
  dsimp only at hd' ⊢
  obtain ⟨rest', verifyReq, hv1, hv2, hv3, hverify'⟩ :=
    Server.VerifySignature_model srv newRequest token k
      (lit (srv.sigOf w.server k (String.mk (encodeChars m)))) m d'
      { built := w.built ++ [{ Method := "POST", Path := "/v1/transit/sign/" ++ k,
                               Body := some (.obj (("input",
                                 .str (String.mk (encodeChars m))) :: rest)) }],
        sent := w.sent ++ [signReq],
        server := w.server ++ [(k, String.mk (encodeChars m),
          srv.sigOf w.server k (String.mk (encodeChars m)))] }
      hverify hd'
  rw [hverify']
  dsimp only
  rw [jsonString_lit] at hv3 ⊢
  refine ⟨by simp, rfl, rfl, signReq, verifyReq, ?_, hs1, hv1, hs2, hv2,
    Request.field_input _ _ _ hs3, Request.field_input _ _ _ hv3,
    _, Request.field_signature _ _ _ _ hv3, rfl⟩
  simp only [List.append_assoc, List.singleton_append]

/-- C2 (witness): the round trip at the key `"my-key"`, the message `"Alas"`
and no options, on a fresh server, with the example rest client. -/
theorem sign_verify_roundtrip_witness :
    (exampleClient.Transit.VerifySignature "my-key" exampleMessage
        (exampleClient.Transit.Sign "my-key" exampleMessage none
          (World.fresh [])).1.1.Signature none
        (exampleClient.Transit.Sign "my-key" exampleMessage none
          (World.fresh [])).2).1.1 = true :=
  (sign_verify_roundtrip exampleServer exampleNewRequest "your-token" "my-key" exampleMessage
    none none (World.fresh []) (fun _ => ⟨_, rfl⟩) (fun _ => ⟨_, rfl⟩) (by decide)
    (by decide)).1

/-- C3 (counterexample): the signature strings `"\xef\xbf\xbd"` (the UTF-8 form
of U+FFFD) and `"\xff"` are different, yet `VerifySignature` sends the same
request body for both, because `encoding/json` writes U+FFFD for the invalid
byte. Against a model server that has produced the triple with the signature
U+FFFD, the call with `"\xff"` returns `(true, nil)`. And for the key `"a%zz"`
the example rest client refuses the path, as `net/url` does, so that a tampered
call returns that error and not `(false, nil)`. -/
theorem tamper_invalid_utf8_counterexample :
    lit "\uFFFD" ≠ ([255] : GoString) ∧
    (exampleClient.Transit.VerifySignature "my-key" exampleMessage [255] none
        (World.fresh [])).2.sent.map Request.Body
      = (exampleClient.Transit.VerifySignature "my-key" exampleMessage (lit "\uFFFD") none
        (World.fresh [])).2.sent.map Request.Body ∧
    (exampleClient.Transit.VerifySignature "my-key" exampleMessage [255] none
        (World.fresh [("my-key", "QWxhcw==", "\uFFFD")])).1.1 = true ∧
    (exampleClient.Transit.VerifySignature "my-key" exampleMessage [255] none
        (World.fresh [("my-key", "QWxhcw==", "\uFFFD")])).1.2.1 = none ∧
    (exampleClient.Transit.VerifySignature "a%zz" [65, 108, 97, 122] (lit "vault:v1:abc") none
        (World.fresh [("a%zz", "QWxhcw==", "vault:v1:abc")])).1.2.1
      = some (.other "invalid URL escape") := by
  refine ⟨by decide, rfl, by decide, by decide, by decide⟩

/-- C3 (amended): tampering is detected when it changes what is sent. For
messages `m' ≠ m` the base64 texts differ, so the verify request for
`(k, m', s)` differs from the one for `(k, m, s)` in its `"input"` member. For
signatures `s` and `s'` that `encoding/json` writes differently (any two
different valid UTF-8 strings do) the request for `(k, m, s')` differs in its
`"signature"` member. The triples of the tampered requests are different from
the triple of `(k, m, s)`, and whenever the triple of a tampered request is not
one the model server produced, the tampered call returns `(false, nil)`. This
holds when the rest client builds the POST request for the verify path as
asked and the option map with the two fields set has a JSON encoding. -/
theorem tamper_detected (srv : Server)
    (newRequest : String → String → Option Json → Except Error Request) (token k : String)
    (s s' : GoString) (m m' : List Byte) (d : Option GoMap) (w : World (List Triple))
    (hm : m' ≠ m) (hs : jsonString s' ≠ jsonString s)
    (hverify : builds newRequest ("/v1/transit/verify/" ++ k))
    (hd : encodable (.map (some (((entries d).set (lit "signature") (.string s)).set
      (lit "input") (.string (EncodeToString m))))) = true) :
    String.mk (encodeChars m') ≠ String.mk (encodeChars m) ∧
    (∀ u u' : String, u' ≠ u → jsonString (lit u') ≠ jsonString (lit u)) ∧
    (∃ req req1 req2,
      ((srv.client newRequest token).Transit.VerifySignature k m s d w).2.sent
        = w.sent ++ [req] ∧
      ((srv.client newRequest token).Transit.VerifySignature k m' s d w).2.sent
        = w.sent ++ [req1] ∧
      ((srv.client newRequest token).Transit.VerifySignature k m s' d w).2.sent
        = w.sent ++ [req2] ∧
      req.field "input" = some (String.mk (encodeChars m)) ∧
      req.field "signature" = some (jsonString s) ∧
      req1.field "input" = some (String.mk (encodeChars m')) ∧
      req1.field "signature" = some (jsonString s) ∧
      req2.field "input" = some (String.mk (encodeChars m)) ∧
      req2.field "signature" = some (jsonString s') ∧
      req1.field "input" ≠ req.field "input" ∧
      req2.field "signature" ≠ req.field "signature") ∧
    (k, String.mk (encodeChars m'), jsonString s)
      ≠ (k, String.mk (encodeChars m), jsonString s) ∧
    (k, String.mk (encodeChars m), jsonString s')
      ≠ (k, String.mk (encodeChars m), jsonString s) ∧
    ((k, String.mk (encodeChars m'), jsonString s) ∉ w.server →
      ((srv.client newRequest token).Transit.VerifySignature k m' s d w).1.1 = false ∧
      ((srv.client newRequest token).Transit.VerifySignature k m' s d w).1.2.1 = none) ∧
    ((k, String.mk (encodeChars m), jsonString s') ∉ w.server →
      ((srv.client newRequest token).Transit.VerifySignature k m s' d w).1.1 = false ∧
      ((srv.client newRequest token).Transit.VerifySignature k m s' d w).1.2.1 = none) := by
  have hinj : String.mk (encodeChars m') ≠ String.mk (encodeChars m) := by
    intro h
    apply hm
    apply jsonString_EncodeToString_injective
    rw [jsonString_EncodeToString, jsonString_EncodeToString, h]
  obtain ⟨rest, req, _, _, h3, hreq⟩ :=
    Server.VerifySignature_model srv newRequest token k s m d w hverify hd
  obtain ⟨rest1, req1, _, _, h13, hreq1⟩ :=
    Server.VerifySignature_model srv newRequest token k s m' d w hverify
      (encodable_verify_of d s s _ _ hd)
  obtain ⟨rest2, req2, _, _, h23, hreq2⟩ :=
    Server.VerifySignature_model srv newRequest token k s' m d w hverify
      (encodable_verify_of d s s' _ _ hd)
  rw [hreq, hreq1, hreq2]
  dsimp only
  refine ⟨hinj, ?_, ⟨req, req1, req2, rfl, rfl, rfl, Request.field_input _ _ _ h3,
    Request.field_signature _ _ _ _ h3, Request.field_input _ _ _ h13,
    Request.field_signature _ _ _ _ h13, Request.field_input _ _ _ h23,
    Request.field_signature _ _ _ _ h23, ?_, ?_⟩, ?_, ?_, ?_, ?_⟩
  · intro u u' hu
    rw [jsonString_lit, jsonString_lit]
    exact hu
  · rw [Request.field_input _ _ _ h13, Request.field_input _ _ _ h3]
    intro h
    exact hinj (Option.some.inj h)
  · rw [Request.field_signature _ _ _ _ h23, Request.field_signature _ _ _ _ h3]
    intro h
    exact hs (Option.some.inj h)
  · intro h
    simp only [Prod.mk.injEq] at h
    exact hinj h.2.1
  · intro h
    simp only [Prod.mk.injEq] at h
    exact hs h.2.2
  · intro hmem
    exact ⟨by simpa using hmem, rfl⟩
  · intro hmem
    exact ⟨by simpa using hmem, rfl⟩

/-- C3 (witness): tampering with the message `"Alas"` or with its signature, on
a server that has signed `"Alas"` under `"my-key"`. -/
theorem tamper_detected_witness :
    (exampleClient.Transit.VerifySignature "my-key" [65, 108, 97, 122]
        (lit "vault:v1:my-key:QWxhcw==") none
        (World.fresh [("my-key", "QWxhcw==", "vault:v1:my-key:QWxhcw==")])).1.1 = false ∧
    (exampleClient.Transit.VerifySignature "my-key" exampleMessage
        (lit "vault:v1:my-key:QWxhcw=") none
        (World.fresh [("my-key", "QWxhcw==", "vault:v1:my-key:QWxhcw==")])).1.1 = false :=
  have h := tamper_detected exampleServer exampleNewRequest "your-token" "my-key"
    (lit "vault:v1:my-key:QWxhcw==") (lit "vault:v1:my-key:QWxhcw=") exampleMessage
    [65, 108, 97, 122] none (World.fresh [("my-key", "QWxhcw==", "vault:v1:my-key:QWxhcw==")])
    (by decide) (by decide) (fun _ => ⟨_, rfl⟩) (by decide)
  ⟨(h.2.2.2.2.2.1 (by decide)).1, (h.2.2.2.2.2.2 (by decide)).1⟩

end Vault
